import Mathlib

/-!
Verification of the citations feed/engagement API.

Shallow embedding of `src/api/src/controllers/papersController.js`,
`feedController.js` and `trendingController.js`.  The MongoDB store is
modelled as explicit lists of paper documents and engagement ledger
entries; each controller becomes a pure function from a store (plus the
request parameters and the current time in milliseconds) to an updated
store and a response outcome.  JavaScript's loose numeric parsing
(`parseInt` returning `NaN`, `Math.max`/`Math.min` propagating `NaN`) is
modelled with `Option Int`, `none` standing for `NaN`.  Timestamps are
integers counting milliseconds since the epoch; `Date` arithmetic is
modelled with fixed 86400000-millisecond days.
-/

namespace Citations

/-- JavaScript `parseInt(s)` (radix 10): skip leading spaces, read an
optional sign and then the longest digit prefix; `none` models `NaN`. -/
def parseIntJS (s : String) : Option Int :=
  let cs := (s.toList).dropWhile (fun c => c = ' ')
  let sign : Int := match cs with
    | '-' :: _ => -1
    | _ => 1
  let rest := match cs with
    | '-' :: r => r
    | '+' :: r => r
    | r => r
  let ds := rest.takeWhile Char.isDigit
  if ds.isEmpty then none
  else some (sign * (ds.foldl (fun a c => a * 10 + ((c.toNat : Int) - ('0'.toNat : Int))) 0))

/-- JavaScript truthiness of an optional string request field:
`undefined`/`null` and the empty string are falsy. -/
def truthy : Option String → Bool
  | none => false
  | some s => !(s == "")

/-- Model of `ObjectId.isValid` for the 24-character hexadecimal form used by the
API routes. -/
def isHexChar (c : Char) : Bool :=
  c.isDigit || ('a' ≤ c && c ≤ 'f') || ('A' ≤ c && c ≤ 'F')

def isValidObjectId (s : String) : Bool :=
  s.length == 24 && s.toList.all isHexChar

/-- A paper document (`papers` collection), restricted to the fields the
controllers read or write. -/
structure Paper where
  id : String
  category : String
  created_at : Int
  likes_count : Int
  views_count : Int
  processed : Bool
deriving Repr, DecidableEq

inductive EngType where
  | like
  | view
deriving Repr, DecidableEq

/-- An engagement ledger entry (`engagements` collection). -/
structure Engagement where
  paper_id : String
  session_id : String
  type : EngType
  created_at : Int
deriving Repr, DecidableEq

/-- The record store: both collections.  `insertOne` appends, matching
Mongo's natural order; `findOne`/`deleteOne`/`findOneAndUpdate` act on
the first matching document. -/
structure Store where
  papers : List Paper
  engagements : List Engagement
deriving Repr, DecidableEq

/-- Mongo `findOneAndUpdate` / `updateOne`: rewrite the first paper whose `_id`
matches. -/
def updatePaper (ps : List Paper) (id : String) (f : Paper → Paper) : List Paper :=
  match ps with
  | [] => []
  | p :: rest => if p.id == id then f p :: rest else p :: updatePaper rest id f

/-- Mongo `deleteOne`: remove the first matching entry, returning the new list
and `deletedCount`. -/
def deleteFirst (pred : Engagement → Bool) : List Engagement → List Engagement × Nat
  | [] => ([], 0)
  | e :: rest =>
    if pred e then (rest, 1)
    else
      let r := deleteFirst pred rest
      (e :: r.1, r.2)

/-- Code `if (!sessionId) sessionId = uuidv4()`: a missing or empty session id
is replaced by a freshly generated UUID, supplied here as `fresh`. -/
def resolveSession (sessionId : Option String) (fresh : String) : String :=
  if truthy sessionId then sessionId.getD "" else fresh

/-- Match predicate of the `findOne`/`deleteOne` filter
`(paper_id, session_id, type: like)`. -/
def likeEntryPred (id sid : String) (e : Engagement) : Bool :=
  e.paper_id == id && e.session_id == sid && e.type == EngType.like

/-- Match predicate of the view-dedup `findOne` filter:
`(paper_id, session_id, type: view, created_at >= oneHourAgo)`. -/
def viewEntryPredRecent (id sid : String) (oneHourAgo : Int) (e : Engagement) : Bool :=
  e.paper_id == id && e.session_id == sid && e.type == EngType.view
    && decide (oneHourAgo ≤ e.created_at)

/-- Fault schedule for the store calls made by `likePaper`, in program
order.  `true` means the awaited call succeeds; `false` means it throws
(reaching the `catch` block, i.e. an HTTP 500). -/
structure Faults where
  findPaperOk : Bool
  findLikeOk : Bool
  insertOk : Bool
  incrementOk : Bool
deriving Repr, DecidableEq

def noFaults : Faults := ⟨true, true, true, true⟩

inductive LikeOutcome where
  | invalidId
  | notFound
  | alreadyLiked (likesCount : Int) (sessionId : String)
  | liked (likesCount : Int) (sessionId : String)
  | storeError
deriving Repr, DecidableEq

/-- Controller `likePaper` with explicit infrastructure faults.  Mirrors the
controller statement by statement: session generation, id validation,
paper lookup, duplicate-like lookup, ledger insert, then a separate
counter increment (`findOneAndUpdate` with `$inc`, `returnDocument:
'after'`; the response reads `result.likes_count || 0`). -/
def likePaperF (st : Store) (id : String) (sessionId : Option String) (fresh : String)
    (now : Int) (f : Faults) : Store × LikeOutcome :=
  let sid := resolveSession sessionId fresh
  if !(isValidObjectId id) then (st, .invalidId)
  else if !f.findPaperOk then (st, .storeError)
  else
    match st.papers.find? (fun p => p.id == id) with
    | none => (st, .notFound)
    | some paper =>
      if !f.findLikeOk then (st, .storeError)
      else
        match st.engagements.find? (likeEntryPred id sid) with
        | some _ => (st, .alreadyLiked paper.likes_count sid)
        | none =>
          if !f.insertOk then (st, .storeError)
          else
            let st1 : Store := ⟨st.papers, st.engagements ++ [⟨id, sid, .like, now⟩]⟩
            if !f.incrementOk then (st1, .storeError)
            else
              let papers2 := updatePaper st1.papers id
                (fun p => { p with likes_count := p.likes_count + 1 })
              (⟨papers2, st1.engagements⟩,
               .liked (((papers2.find? (fun p => p.id == id)).map Paper.likes_count).getD 0) sid)

/-- Controller `likePaper` on healthy infrastructure. -/
def likePaper (st : Store) (id : String) (sessionId : Option String) (fresh : String)
    (now : Int) : Store × LikeOutcome :=
  likePaperF st id sessionId fresh now noFaults

inductive UnlikeOutcome where
  | sessionRequired
  | invalidId
  | notFound
  | notLiked (likesCount : Int)
  | unliked (likesCount : Int)
deriving Repr, DecidableEq

/-- Controller `unlikePaper`: requires a session id, validates the paper id, runs
`deleteOne` on the like entry, and decrements the stored counter only
when `deletedCount` is nonzero.  Only the response value is clamped with
`Math.max(0, ...)`; the stored counter receives a bare `$inc: -1`. -/
def unlikePaper (st : Store) (id : String) (sessionId : Option String) (now : Int) :
    Store × UnlikeOutcome :=
  if !(truthy sessionId) then (st, .sessionRequired)
  else
    let sid := sessionId.getD ""
    if !(isValidObjectId id) then (st, .invalidId)
    else
      match st.papers.find? (fun p => p.id == id) with
      | none => (st, .notFound)
      | some paper =>
        let del := deleteFirst (likeEntryPred id sid) st.engagements
        if del.2 == 0 then (⟨st.papers, del.1⟩, .notLiked paper.likes_count)
        else
          let papers2 := updatePaper st.papers id
            (fun p => { p with likes_count := p.likes_count - 1 })
          (⟨papers2, del.1⟩,
           .unliked (max 0 (((papers2.find? (fun p => p.id == id)).map Paper.likes_count).getD 0)))

inductive ViewOutcome where
  | invalidId
  | notFound
  | tracked (sessionId : String)
deriving Repr, DecidableEq

/-- Controller `viewPaper`: a view is recorded (ledger entry plus `views_count`
increment) only when no view by the same session exists within the last
hour (`created_at >= now - 3600000`). -/
def viewPaper (st : Store) (id : String) (sessionId : Option String) (fresh : String)
    (now : Int) : Store × ViewOutcome :=
  let sid := resolveSession sessionId fresh
  if !(isValidObjectId id) then (st, .invalidId)
  else
    match st.papers.find? (fun p => p.id == id) with
    | none => (st, .notFound)
    | some _ =>
      let oneHourAgo := now - 3600000
      match st.engagements.find? (viewEntryPredRecent id sid oneHourAgo) with
      | some _ => (st, .tracked sid)
      | none =>
        (⟨updatePaper st.papers id (fun p => { p with views_count := p.views_count + 1 }),
          st.engagements ++ [⟨id, sid, .view, now⟩]⟩, .tracked sid)

/-- Number of active like ledger entries for one `(paper, session)`
pair. -/
def sessionLikeCount (st : Store) (id sid : String) : Nat :=
  (st.engagements.filter (likeEntryPred id sid)).length

/-- Number of active view ledger entries for one `(paper, session)`
pair (any age). -/
def sessionViewCount (st : Store) (id sid : String) : Nat :=
  (st.engagements.filter
    (fun e => e.paper_id == id && e.session_id == sid && e.type == EngType.view)).length

/-- Number of ledger entries of one type for a paper in an engagement
list, across all sessions. -/
def entryCount (es : List Engagement) (t : EngType) (pid : String) : Int :=
  ((es.filter (fun e => e.paper_id == pid && e.type == t)).length : Int)

/-- Number of active ledger entries of one type for a paper, across all
sessions. -/
def typeCount (st : Store) (t : EngType) (pid : String) : Int :=
  entryCount st.engagements t pid

/-- Stored counter of the first paper with the given id. -/
def storedLikes (st : Store) (id : String) : Option Int :=
  (st.papers.find? (fun p => p.id == id)).map Paper.likes_count

def storedViews (st : Store) (id : String) : Option Int :=
  (st.papers.find? (fun p => p.id == id)).map Paper.views_count

/-! ### Feed query engine (`feedController.js`) -/

/-- Destructuring `const page = 1 of req.query` followed by `parseInt(page)`. -/
def pageParsed (page : Option String) : Option Int :=
  match page with
  | none => some 1
  | some s => parseIntJS s

/-- Destructuring `const limit = 20 of req.query` followed by `parseInt(limit)`. -/
def limitParsed (limit : Option String) : Option Int :=
  match limit with
  | none => some 20
  | some s => parseIntJS s

/-- Clamp `Math.max(1, parseInt(page))` — `NaN` (`none`) propagates. -/
def feedPageNum (page : Option String) : Option Int :=
  (pageParsed page).map (fun n => max 1 n)

/-- Clamp `Math.min(100, Math.max(1, parseInt(limit)))` — `NaN` propagates. -/
def feedLimitNum (limit : Option String) : Option Int :=
  (limitParsed limit).map (fun n => min 100 (max 1 n))

/-- Filter `if (category) filter.category = category`. -/
def catMatch (category : Option String) (p : Paper) : Bool :=
  if truthy category then p.category == category.getD "" else true

/-- The fields `encode` serializes: `created_at`, `likes_count`, and the
tie-break `id` of the last item of the page. -/
structure CursorData where
  created_at : Int
  likes_count : Int
  id : String
deriving Repr, DecidableEq

/-- A cursor token, i.e. base64-encoded JSON, by its observable decoding
behaviour: `garbage` stands for any string on which `JSON.parse` throws,
`ok d` for one that parses to the object `d`.  An empty cursor query
parameter is falsy in JS and is represented as an absent token. -/
inductive Token where
  | garbage (raw : String)
  | ok (data : CursorData)
deriving Repr, DecidableEq

def decodeToken : Token → Option CursorData
  | .garbage _ => none
  | .ok d => some d

def encodeCursor (p : Paper) : CursorData :=
  ⟨p.created_at, p.likes_count, p.id⟩

/-- The extra filter condition built from a decoded cursor.  Only
`newest` and `popular` add a condition; any other sort value leaves the
cursor unused.  The cursor's `id` field is never consulted. -/
def cursorCond (sort : String) (d : CursorData) (p : Paper) : Bool :=
  if sort == "newest" then decide (p.created_at < d.created_at)
  else if sort == "popular" then
    decide (p.likes_count < d.likes_count)
      || (p.likes_count == d.likes_count && decide (p.created_at < d.created_at))
  else true

/-- Sort order `{ created_at: -1 }`: `a` may precede `b`. -/
def newestRel (a b : Paper) : Prop := b.created_at ≤ a.created_at

/-- Sort order `{ likes_count: -1, created_at: -1 }`. -/
def popularRel (a b : Paper) : Prop :=
  b.likes_count < a.likes_count
    ∨ (b.likes_count = a.likes_count ∧ b.created_at ≤ a.created_at)

/-- Sort order `{ likes_count: -1, views_count: -1, created_at: -1 }`
(the feed's `trending` case). -/
def engagementRel (a b : Paper) : Prop :=
  b.likes_count < a.likes_count
    ∨ (b.likes_count = a.likes_count
        ∧ (b.views_count < a.views_count
            ∨ (b.views_count = a.views_count ∧ b.created_at ≤ a.created_at)))

instance : DecidableRel newestRel :=
  fun a b => inferInstanceAs (Decidable (b.created_at ≤ a.created_at))

instance : DecidableRel popularRel :=
  fun a b => inferInstanceAs (Decidable (_ ∨ _))

instance : DecidableRel engagementRel :=
  fun a b => inferInstanceAs (Decidable (_ ∨ _))

instance : IsTotal Paper newestRel :=
  ⟨fun a b => by unfold newestRel; omega⟩

instance : IsTrans Paper newestRel :=
  ⟨fun a b c => by unfold newestRel; omega⟩

instance : IsTotal Paper popularRel :=
  ⟨fun a b => by unfold popularRel; omega⟩

instance : IsTrans Paper popularRel :=
  ⟨fun a b c => by unfold popularRel; omega⟩

instance : IsTotal Paper engagementRel :=
  ⟨fun a b => by unfold engagementRel; omega⟩

instance : IsTrans Paper engagementRel :=
  ⟨fun a b c => by unfold engagementRel; omega⟩

/-- The deterministic embedding of the store's sort.  Mongo leaves the
relative order of sort-key ties unspecified; stable insertion sort picks
one deterministic order consistent with each sort specification. -/
def feedSort (sort : String) (ps : List Paper) : List Paper :=
  if sort == "popular" then ps.insertionSort popularRel
  else if sort == "trending" then ps.insertionSort engagementRel
  else ps.insertionSort newestRel

/-- The `nextCursor` computation: built exactly when the page is full
(`papers.length === limitNum`), from the last item of the page. -/
def feedNextCursor (items : List Paper) (limit : Int) : Option CursorData :=
  if items.length == limit.toNat then (items.getLast?).map encodeCursor else none

inductive FeedOutcome where
  | invalidCursor
  | nanParams
  | pageOk (items : List Paper) (page limit total totalPages : Int) (hasMore : Bool)
      (next : Option CursorData)
  | cursorOk (items : List Paper) (limit : Int) (hasMore : Bool) (next : Option CursorData)
deriving Repr, DecidableEq

/-- Controller `getFeed`.  With a cursor present the skip is forced to 0 and the
cursor condition is added to the filter; without one, page-based
`skip/limit` applies.  `nanParams` marks the paths where a `NaN`
page or limit would be handed to the store driver (`skip(NaN)` /
`limit(NaN)`), which the model does not follow further.  The page-based
response omits `nextCursor`, but the controller still computes it
(lines 116-125); `pageOk` therefore carries it too. -/
def feedCursorResult (papers : List Paper) (category : Option String) (sort : String)
    (d : CursorData) (l : Int) : FeedOutcome :=
  let matched := papers.filter (fun p => catMatch category p && cursorCond sort d p)
  let items := (feedSort sort matched).take l.toNat
  .cursorOk items l (items.length == l.toNat) (feedNextCursor items l)

def feedPageResult (papers : List Paper) (category : Option String) (sort : String)
    (pg l : Int) : FeedOutcome :=
  let matched := papers.filter (catMatch category)
  let items := ((feedSort sort matched).drop ((pg - 1) * l).toNat).take l.toNat
  let total : Int := matched.length
  .pageOk items pg l total ((total + l - 1) / l) (decide (pg * l < total))
    (feedNextCursor items l)

def getFeed (papers : List Paper) (page limitQ category : Option String)
    (cursor : Option Token) (sortQ : Option String) : FeedOutcome :=
  let sort := sortQ.getD "newest"
  match cursor with
  | some tok =>
    match decodeToken tok with
    | none => .invalidCursor
    | some d =>
      match feedLimitNum limitQ with
      | none => .nanParams
      | some l => feedCursorResult papers category sort d l
  | none =>
    match feedPageNum page, feedLimitNum limitQ with
    | some pg, some l => feedPageResult papers category sort pg l
    | _, _ => .nanParams

/-- One request of a cursor iteration: the first request (no cursor yet)
is the plain page-based call, later requests resume from the previous
page's cursor data. -/
def feedStep (papers : List Paper) (limitQ category : Option String) (sortQ : Option String)
    (cur : Option CursorData) : FeedOutcome :=
  match cur with
  | none => getFeed papers none limitQ category none sortQ
  | some d => getFeed papers none limitQ category (some (.ok d)) sortQ

/-- Iterate cursor pages from the start while `hasMore`, concatenating
the items; `fuel` bounds the number of requests. -/
def feedPages (papers : List Paper) (limitQ category : Option String) (sortQ : Option String) :
    Nat → Option CursorData → List Paper
  | 0, _ => []
  | fuel + 1, cur =>
    match feedStep papers limitQ category sortQ cur with
    | .pageOk items _ _ _ _ hasMore next =>
      items ++ (if hasMore then
        match next with
        | some d => feedPages papers limitQ category sortQ fuel (some d)
        | none => []
      else [])
    | .cursorOk items _ hasMore next =>
      items ++ (if hasMore then
        match next with
        | some d => feedPages papers limitQ category sortQ fuel (some d)
        | none => []
      else [])
    | _ => []

/-! ### Trending scorer (`trendingController.js`) -/

def msPerDay : Int := 86400000

/-- Clamp `Math.min(50, Math.max(1, parseInt(limit)))` with default 20. -/
def trendingLimitNum (limit : Option String) : Option Int :=
  (match limit with | none => some 20 | some s => parseIntJS s).map
    (fun n => min 50 (max 1 n))

/-- Coercion `parseInt(timeWindow)` if in the list 1, 7, 30, else 7,
with default 7; `NaN` is not in the list, so it also coerces to 7. -/
def trendingWindowNum (timeWindow : Option String) : Int :=
  match (match timeWindow with | none => some 7 | some s => parseIntJS s) with
  | some n => if n == 1 || n == 7 || n == 30 then n else 7
  | none => 7

/-- Field `days_old`: fractional age in days, `(now - created_at) / 86400000`. -/
def daysOld (now created : Int) : ℚ :=
  ((now - created : Int) : ℚ) / (86400000 : ℚ)

/-- Field `engagement_score = likes_count * 2 + views_count` (counters default
to 0 via `$ifNull`; the model keeps them total). -/
def engagementScore (p : Paper) : Int :=
  p.likes_count * 2 + p.views_count

/-- Field `trending_score`: `engagement_score / (days_old + 1)`, with the
aggregation's special case returning the raw engagement score when
`days_old` is exactly 0. -/
def trendingScore (now : Int) (p : Paper) : ℚ :=
  if daysOld now p.created_at = 0 then (engagementScore p : ℚ)
  else (engagementScore p : ℚ) / (daysOld now p.created_at + 1)

/-- The `$match` stage: `processed: true`, `created_at >= now - W days`
(`setDate` modelled with fixed 24-hour days), plus the truthy category
filter.  There is no upper bound on `created_at`. -/
def trendingMatch (category : Option String) (now W : Int) (p : Paper) : Bool :=
  p.processed && decide (now - W * msPerDay ≤ p.created_at) && catMatch category p

/-- Stage `$sort` on `trending_score: -1, created_at: -1` on scored papers. -/
def trendScoreRel (x y : Paper × ℚ) : Prop :=
  y.2 < x.2 ∨ (y.2 = x.2 ∧ y.1.created_at ≤ x.1.created_at)

instance : DecidableRel trendScoreRel :=
  fun x y => inferInstanceAs (Decidable (_ ∨ _))

instance : IsTotal (Paper × ℚ) trendScoreRel := by
  constructor
  intro x y
  unfold trendScoreRel
  rcases lt_trichotomy y.2 x.2 with h | h | h
  · exact Or.inl (Or.inl h)
  · rcases le_total y.1.created_at x.1.created_at with h2 | h2
    · exact Or.inl (Or.inr ⟨h, h2⟩)
    · exact Or.inr (Or.inr ⟨h.symm, h2⟩)
  · exact Or.inr (Or.inl h)

instance : IsTrans (Paper × ℚ) trendScoreRel := by
  constructor
  intro x y z hxy hyz
  unfold trendScoreRel at *
  rcases hxy with h1 | ⟨h1, h1c⟩
  · rcases hyz with h2 | ⟨h2, _⟩
    · exact Or.inl (h2.trans h1)
    · exact Or.inl (h2 ▸ h1)
  · rcases hyz with h2 | ⟨h2, h2c⟩
    · exact Or.inl (h1 ▸ h2)
    · exact Or.inr ⟨h2.trans h1, h2c.trans h1c⟩

/-- The candidate set of the aggregation's `$match` stage. -/
def trendingCandidates (papers : List Paper) (category : Option String) (now W : Int) :
    List Paper :=
  papers.filter (trendingMatch category now W)

/-- Candidates scored by `$addFields` and ordered by the `$sort` stage. -/
def trendingRanked (papers : List Paper) (category : Option String) (now W : Int) :
    List (Paper × ℚ) :=
  ((trendingCandidates papers category now W).map
    (fun p => (p, trendingScore now p))).insertionSort trendScoreRel

inductive TrendOutcome where
  | nanParams
  | ok (items : List (Paper × ℚ)) (page limit totalCount totalPages window : Int)
deriving Repr, DecidableEq

/-- Controller `getTrending`: parameter coercion, then the aggregation pipeline
(match, score, sort, `$skip`, `$limit`) and `countDocuments` on the same
query. -/
def getTrending (papers : List Paper) (page limitQ timeWindow category : Option String)
    (now : Int) : TrendOutcome :=
  let pageNum := (pageParsed page).map (fun n => max 1 n)
  let W := trendingWindowNum timeWindow
  match pageNum, trendingLimitNum limitQ with
  | some pg, some l =>
    let ranked := trendingRanked papers category now W
    let items := (ranked.drop ((pg - 1) * l).toNat).take l.toNat
    let total : Int := (trendingCandidates papers category now W).length
    .ok items pg l total ((total + l - 1) / l) W
  | _, _ => .nanParams

/-! ### Engagement operation sequences (for the counter invariant) -/

inductive Op where
  | like (id : String) (sessionId : Option String) (fresh : String) (now : Int)
  | unlike (id : String) (sessionId : Option String) (now : Int)
  | view (id : String) (sessionId : Option String) (fresh : String) (now : Int)

def applyOp (st : Store) : Op → Store
  | .like id sid fresh now => (likePaper st id sid fresh now).1
  | .unlike id sid now => (unlikePaper st id sid now).1
  | .view id sid fresh now => (viewPaper st id sid fresh now).1

def applyOps (st : Store) (ops : List Op) : Store :=
  ops.foldl applyOp st

/-- A consistent store: paper ids are unique (Mongo `_id`s), and each
paper's denormalized counters equal the number of active ledger entries
of the corresponding type. -/
def Consistent (st : Store) : Prop :=
  (st.papers.map Paper.id).Nodup ∧
  ∀ p ∈ st.papers,
    p.likes_count = typeCount st .like p.id ∧ p.views_count = typeCount st .view p.id

/-- Repeat the like request `n` times with the same parameters and
return the final store. -/
def likeIter (id : String) (sessionId : Option String) (fresh : String) (now : Int) :
    Nat → Store → Store
  | 0, st => st
  | n + 1, st => likeIter id sessionId fresh now n (likePaper st id sessionId fresh now).1

/-- The list of outcomes of `n` repeated like requests. -/
def likeResults (id : String) (sessionId : Option String) (fresh : String) (now : Int) :
    Nat → Store → List LikeOutcome
  | 0, _ => []
  | n + 1, st =>
    (likePaper st id sessionId fresh now).2
      :: likeResults id sessionId fresh now n (likePaper st id sessionId fresh now).1

/-- Whether an unlike outcome reports an actual deletion. -/
def isUnliked : UnlikeOutcome → Bool
  | .unliked _ => true
  | _ => false

/-- Strict version of the `newest` order, used to reason about
tie-free stores. -/
def newestGt (a b : Paper) : Prop := b.created_at < a.created_at

/-- A valid 24-hex-character ObjectId used by concrete instances. -/
def oidA : String := "aaaaaaaaaaaaaaaaaaaaaaaa"

def oidB : String := "bbbbbbbbbbbbbbbbbbbbbbbb"

def oidC : String := "cccccccccccccccccccccccc"

/-- Concrete store with one paper, used by the like-atomicity
counterexample. -/
def c3Paper : Paper := ⟨oidA, "cs", 1000, 0, 0, true⟩

def c3Store : Store := ⟨[c3Paper], []⟩

/-- Fault schedule whose ledger insert succeeds but whose counter
increment fails. -/
def c3Faults : Faults := ⟨true, true, true, false⟩

/-- Two papers sharing one creation timestamp (a sort-key tie), used by
the pagination counterexample. -/
def c4A : Paper := ⟨oidA, "cs", 500, 0, 0, true⟩

def c4B : Paper := ⟨oidB, "cs", 500, 1, 0, true⟩

/-- A record with a distinct creation timestamp for the tie-free
pagination instance. -/
def c4D : Paper := ⟨oidC, "cs", 400, 2, 0, true⟩

/-- The trending counterexample store: `c5A` is processed and one day
old, `c5B` is processed and nine days old, `c5C` is inside the window
but not marked processed. -/
def c5Now : Int := 9 * 86400000

def c5A : Paper := ⟨oidA, "cs", 8 * 86400000, 10, 0, true⟩

def c5B : Paper := ⟨oidB, "cs", 0, 10, 0, true⟩

def c5C : Paper := ⟨oidC, "cs", 8 * 86400000, 10, 0, false⟩

/-- A paper and a well-formed cursor for the cursor-mode-mismatch
counterexample. -/
def c7Paper : Paper := ⟨oidA, "cs", 500, 0, 0, true⟩

def c7Data : CursorData := ⟨600, 0, oidB⟩

/-- Shared one-paper store for concrete instantiations. -/
def basePaper : Paper := ⟨oidA, "cs", 1000, 0, 0, true⟩

def baseStore : Store := ⟨[basePaper], []⟩

/-! ## Helper lemmas -/

theorem map_eq_self_of_mem {α : Type} (l : List α) (g : α → α) (h : ∀ x ∈ l, g x = x) :
    l.map g = l := by
  induction l with
  | nil => rfl
  | cons x xs ih =>
    simp only [List.map_cons, h x (by simp)]
    rw [ih (fun y hy => h y (by simp [hy]))]

theorem find?_updatePaper (ps : List Paper) (id : String) (f : Paper → Paper)
    (hf : ∀ p, (f p).id = p.id) :
    (updatePaper ps id f).find? (fun p => p.id == id)
      = (ps.find? (fun p => p.id == id)).map f := by
  induction ps with
  | nil => simp [updatePaper]
  | cons p rest ih =>
    by_cases h : (p.id == id) = true
    · have h2 : ((f p).id == id) = true := by rw [hf]; exact h
      simp [updatePaper, h, h2]
    · have h' : (p.id == id) = false := by simpa using h
      simp [updatePaper, h', ih]

theorem map_id_updatePaper (ps : List Paper) (id : String) (f : Paper → Paper)
    (hf : ∀ p, (f p).id = p.id) :
    (updatePaper ps id f).map Paper.id = ps.map Paper.id := by
  induction ps with
  | nil => rfl
  | cons p rest ih =>
    by_cases h : (p.id == id) = true
    · simp [updatePaper, h, hf]
    · have h' : (p.id == id) = false := by simpa using h
      simp [updatePaper, h', ih]

theorem updatePaper_eq_map (ps : List Paper) (id : String) (f : Paper → Paper)
    (hnd : (ps.map Paper.id).Nodup) :
    updatePaper ps id f = ps.map (fun p => if p.id == id then f p else p) := by
  induction ps with
  | nil => rfl
  | cons p rest ih =>
    simp only [List.map_cons, List.nodup_cons] at hnd
    obtain ⟨hp, hrest⟩ := hnd
    by_cases h : (p.id == id) = true
    · have hpid : p.id = id := by simpa using h
      have hrid : ∀ q ∈ rest, ¬((q.id == id) = true) := by
        intro q hq hc
        have hqid : q.id = id := by simpa using hc
        exact hp (by rw [hpid, ← hqid]; exact List.mem_map_of_mem Paper.id hq)
      have hmap : rest.map (fun q => if q.id == id then f q else q) = rest :=
        map_eq_self_of_mem _ _ (fun q hq => if_neg (hrid q hq))
      simp only [updatePaper, List.map_cons]
      rw [if_pos h, if_pos h, hmap]
    · simp only [updatePaper, List.map_cons]
      rw [if_neg h, if_neg h, ih hrest]

theorem deleteFirst_count_zero_or_one (pred : Engagement → Bool) (es : List Engagement) :
    (deleteFirst pred es).2 = 0 ∨ (deleteFirst pred es).2 = 1 := by
  induction es with
  | nil => left; rfl
  | cons e rest ih =>
    by_cases h : pred e = true
    · right; simp [deleteFirst, h]
    · have h' : pred e = false := by simpa using h
      simpa [deleteFirst, h'] using ih

theorem deleteFirst_zero (pred : Engagement → Bool) (es : List Engagement)
    (h : (deleteFirst pred es).2 = 0) :
    (deleteFirst pred es).1 = es ∧ ∀ e ∈ es, pred e = false := by
  induction es with
  | nil => exact ⟨rfl, by simp⟩
  | cons e rest ih =>
    by_cases hp : pred e = true
    · simp [deleteFirst, hp] at h
    · have hp' : pred e = false := by simpa using hp
      have h2 : (deleteFirst pred rest).2 = 0 := by simpa [deleteFirst, hp'] using h
      obtain ⟨h3, h4⟩ := ih h2
      refine ⟨by simp [deleteFirst, hp', h3], ?_⟩
      intro x hx
      rcases List.mem_cons.mp hx with rfl | hx2
      · exact hp'
      · exact h4 x hx2

theorem deleteFirst_one (pred : Engagement → Bool) (es : List Engagement)
    (h : (deleteFirst pred es).2 = 1) :
    ∃ l₁ e l₂, es = l₁ ++ e :: l₂ ∧ pred e = true ∧ (∀ x ∈ l₁, pred x = false) ∧
      (deleteFirst pred es).1 = l₁ ++ l₂ := by
  induction es with
  | nil => simp [deleteFirst] at h
  | cons e rest ih =>
    by_cases hp : pred e = true
    · exact ⟨[], e, rest, by simp, hp, by simp, by simp [deleteFirst, hp]⟩
    · have hp' : pred e = false := by simpa using hp
      have h2 : (deleteFirst pred rest).2 = 1 := by simpa [deleteFirst, hp'] using h
      obtain ⟨l₁, x, l₂, he, hx, hl1, hd⟩ := ih h2
      refine ⟨e :: l₁, x, l₂, by simp [he], hx, ?_, by simp [deleteFirst, hp', hd]⟩
      intro y hy
      rcases List.mem_cons.mp hy with rfl | hy2
      · exact hp'
      · exact hl1 y hy2

theorem entryCount_nonneg (es : List Engagement) (t : EngType) (pid : String) :
    0 ≤ entryCount es t pid :=
  Int.natCast_nonneg _

theorem entryCount_append_one (es : List Engagement) (e : Engagement) (t : EngType)
    (pid : String) :
    entryCount (es ++ [e]) t pid
      = entryCount es t pid + (if (e.paper_id == pid && e.type == t) = true then 1 else 0) := by
  unfold entryCount
  rw [List.filter_append]
  by_cases h : (e.paper_id == pid && e.type == t) = true
  · simp [h]
  · have h' : (e.paper_id == pid && e.type == t) = false := by simpa using h
    simp [h']

theorem resolveSession_some (s fresh : String) (hs : s ≠ "") :
    resolveSession (some s) fresh = s := by
  simp [resolveSession, truthy, hs]

theorem resolveSession_none (fresh : String) : resolveSession none fresh = fresh := rfl

theorem likeEntryPred_self (id sid : String) (now : Int) :
    likeEntryPred id sid ⟨id, sid, .like, now⟩ = true := by
  simp [likeEntryPred]

/-- Main-path evaluation of `likePaper`: valid id, paper present, no
active like entry for the resolved session. -/
theorem likePaper_insert (st : Store) (id : String) (sessionId : Option String)
    (fresh : String) (now : Int) (P : Paper)
    (hval : isValidObjectId id = true)
    (hP : st.papers.find? (fun p => p.id == id) = some P)
    (hL : st.engagements.find? (likeEntryPred id (resolveSession sessionId fresh)) = none) :
    likePaper st id sessionId fresh now
      = (⟨updatePaper st.papers id (fun p => { p with likes_count := p.likes_count + 1 }),
          st.engagements ++ [⟨id, resolveSession sessionId fresh, .like, now⟩]⟩,
         .liked (P.likes_count + 1) (resolveSession sessionId fresh)) := by
  unfold likePaper likePaperF noFaults
  simp only [hval, hP, hL, Bool.not_true, Bool.false_eq_true, if_false, Bool.not_false,
    Bool.true_eq_false]
  rw [find?_updatePaper st.papers id
    (fun p => { p with likes_count := p.likes_count + 1 }) (fun p => rfl), hP]
  rfl

/-- No-op evaluation of `likePaper`: an active like entry already
exists. -/
theorem likePaper_noop (st : Store) (id : String) (sessionId : Option String)
    (fresh : String) (now : Int) (P : Paper) (e : Engagement)
    (hval : isValidObjectId id = true)
    (hP : st.papers.find? (fun p => p.id == id) = some P)
    (hL : st.engagements.find? (likeEntryPred id (resolveSession sessionId fresh)) = some e) :
    likePaper st id sessionId fresh now
      = (st, .alreadyLiked P.likes_count (resolveSession sessionId fresh)) := by
  unfold likePaper likePaperF noFaults
  simp [hval, hP, hL]

/-- Once an active like entry exists, repeated like requests leave the
store unchanged, each answering with the current counter. -/
theorem likeIter_noop (id : String) (sessionId : Option String) (fresh : String) (now : Int)
    (m : Nat) (st : Store) (Q : Paper) (e : Engagement)
    (hval : isValidObjectId id = true)
    (hP : st.papers.find? (fun p => p.id == id) = some Q)
    (hE : st.engagements.find? (likeEntryPred id (resolveSession sessionId fresh)) = some e) :
    likeIter id sessionId fresh now m st = st ∧
    likeResults id sessionId fresh now m st
      = List.replicate m (.alreadyLiked Q.likes_count (resolveSession sessionId fresh)) := by
  induction m with
  | zero => exact ⟨rfl, rfl⟩
  | succ n ih =>
    have hstep := likePaper_noop st id sessionId fresh now Q e hval hP hE
    constructor
    · simp only [likeIter]
      rw [hstep]
      exact ih.1
    · simp only [likeResults]
      rw [hstep]
      simp only [List.replicate_succ]
      rw [ih.2]

/-- C1.  Like idempotence: from a state where `(p, s)` is not yet
liked, `n ≥ 1` sequential like calls leave exactly one active like
entry for `(p, s)`, raise the stored counter by exactly one over its
initial value, and every call reports `liked` (the first inserting,
every later one a no-op returning the current counter). -/
theorem c1_like_idempotence (st : Store) (id s fresh : String) (now : Int) (n : Nat) (P : Paper)
    (hval : isValidObjectId id = true)
    (hP : st.papers.find? (fun p => p.id == id) = some P)
    (hs : s ≠ "")
    (hL : st.engagements.find? (likeEntryPred id s) = none)
    (hn : 1 ≤ n) :
    sessionLikeCount (likeIter id (some s) fresh now n st) id s = 1
    ∧ storedLikes (likeIter id (some s) fresh now n st) id = some (P.likes_count + 1)
    ∧ likeResults id (some s) fresh now n st
        = .liked (P.likes_count + 1) s
            :: List.replicate (n - 1) (.alreadyLiked (P.likes_count + 1) s) := by
  obtain ⟨m, rfl⟩ : ∃ m, n = m + 1 := ⟨n - 1, by omega⟩
  have hres : resolveSession (some s) fresh = s := resolveSession_some s fresh hs
  have hstep := likePaper_insert st id (some s) fresh now P hval hP (by rw [hres]; exact hL)
  rw [hres] at hstep
  have hP1 : (Store.mk
      (updatePaper st.papers id (fun p => { p with likes_count := p.likes_count + 1 }))
      (st.engagements ++ [(⟨id, s, .like, now⟩ : Engagement)])).papers.find? (fun p => p.id == id)
      = some { P with likes_count := P.likes_count + 1 } := by
    show (updatePaper st.papers id _).find? _ = _
    rw [find?_updatePaper st.papers id
      (fun p => { p with likes_count := p.likes_count + 1 }) (fun p => rfl), hP]
    rfl
  have hE1 : (Store.mk
      (updatePaper st.papers id (fun p => { p with likes_count := p.likes_count + 1 }))
      (st.engagements ++ [(⟨id, s, .like, now⟩ : Engagement)])).engagements.find?
        (likeEntryPred id (resolveSession (some s) fresh))
      = some ⟨id, s, .like, now⟩ := by
    rw [hres]
    show (st.engagements ++ [(⟨id, s, .like, now⟩ : Engagement)]).find? _ = _
    rw [List.find?_append, hL]
    simp [likeEntryPred_self]
  have hnoop := likeIter_noop id (some s) fresh now m _ _ _ hval hP1 hE1
  rw [hres] at hnoop
  have hfil : st.engagements.filter (likeEntryPred id s) = [] :=
    List.filter_eq_nil_iff.mpr (fun e he => (List.find?_eq_none.mp hL) e he)
  refine ⟨?_, ?_, ?_⟩
  · simp only [likeIter]
    rw [hstep]
    show sessionLikeCount (likeIter id (some s) fresh now m _) id s = 1
    rw [hnoop.1]
    unfold sessionLikeCount
    show ((st.engagements ++ [(⟨id, s, .like, now⟩ : Engagement)]).filter (likeEntryPred id s)).length = 1
    rw [List.filter_append, hfil]
    simp [likeEntryPred_self]
  · simp only [likeIter]
    rw [hstep]
    show storedLikes (likeIter id (some s) fresh now m _) id = _
    rw [hnoop.1]
    unfold storedLikes
    rw [hP1]
    rfl
  · simp only [likeResults]
    rw [hstep]
    show LikeOutcome.liked (P.likes_count + 1) s
        :: likeResults id (some s) fresh now m _ = _
    rw [hnoop.2]
    simp

/-- Closed instance of C1: three like calls on a fresh one-paper
store. -/
theorem c1_witness :
    (isValidObjectId oidA = true
      ∧ baseStore.papers.find? (fun p => p.id == oidA) = some basePaper
      ∧ "s1" ≠ ""
      ∧ baseStore.engagements.find? (likeEntryPred oidA "s1") = none
      ∧ 1 ≤ 3)
    ∧ (sessionLikeCount (likeIter oidA (some "s1") "u" 5 3 baseStore) oidA "s1" = 1
      ∧ storedLikes (likeIter oidA (some "s1") "u" 5 3 baseStore) oidA
          = some (basePaper.likes_count + 1)
      ∧ likeResults oidA (some "s1") "u" 5 3 baseStore
          = .liked (basePaper.likes_count + 1) "s1"
              :: List.replicate (3 - 1) (.alreadyLiked (basePaper.likes_count + 1) "s1")) :=
  ⟨⟨by decide, by decide, by decide, by decide, by decide⟩,
   c1_like_idempotence baseStore oidA "s1" "u" 5 3 basePaper (by decide) (by decide)
     (by decide) (by decide) (by decide)⟩

/-- C3 counterexample.  A like call that fails (the counter increment
throws after the ledger insert committed) leaves the ledger changed:
the claim that a failed call changes neither ledger nor counter is
false at this input. -/
theorem c3_counterexample :
    (likePaperF c3Store oidA (some "s1") "u" 5 c3Faults).2 = .storeError
    ∧ (likePaperF c3Store oidA (some "s1") "u" 5 c3Faults).1.engagements ≠ c3Store.engagements
    ∧ (likePaperF c3Store oidA (some "s1") "u" 5 c3Faults).1.papers = c3Store.papers := by
  decide

/-- C3 amended.  Validation failures (invalid or unknown id) leave the
store untouched, and no failing call ever changes a counter; but the
ledger insert and the counter increment are two separate store writes,
so when the increment faults after a successful insert the failed call
leaves the like entry durably inserted with the counter unchanged. -/
theorem c3_like_atomicity (st : Store) (id : String) (sessionId : Option String)
    (fresh : String) (now : Int) (f : Faults) :
    (((likePaperF st id sessionId fresh now f).2 = .invalidId
        ∨ (likePaperF st id sessionId fresh now f).2 = .notFound) →
      (likePaperF st id sessionId fresh now f).1 = st)
    ∧ ((likePaperF st id sessionId fresh now f).2 = .storeError →
        (likePaperF st id sessionId fresh now f).1.papers = st.papers)
    ∧ (isValidObjectId id = true →
        (∃ P, st.papers.find? (fun p => p.id == id) = some P) →
        st.engagements.find? (likeEntryPred id (resolveSession sessionId fresh)) = none →
        f = ⟨true, true, true, false⟩ →
        likePaperF st id sessionId fresh now f
          = (⟨st.papers,
              st.engagements ++ [⟨id, resolveSession sessionId fresh, .like, now⟩]⟩,
             .storeError)) := by
  by_cases hv : isValidObjectId id = true
  · by_cases h1 : f.findPaperOk = true
    · rcases hfind : st.papers.find? (fun p => p.id == id) with _ | P
      · have hres : likePaperF st id sessionId fresh now f = (st, .notFound) := by
          unfold likePaperF
          simp [hv, h1, hfind]
        rw [hres]
        refine ⟨fun _ => rfl, by simp, ?_⟩
        rintro _ ⟨P, hP⟩ _ _
        simp [hfind] at hP
      · by_cases h2 : f.findLikeOk = true
        · rcases hE : st.engagements.find?
              (likeEntryPred id (resolveSession sessionId fresh)) with _ | e
          · by_cases h3 : f.insertOk = true
            · by_cases h4 : f.incrementOk = true
              · have hres : (likePaperF st id sessionId fresh now f).2
                    = .liked ((((updatePaper st.papers id
                        (fun p => { p with likes_count := p.likes_count + 1 })).find?
                          (fun p => p.id == id)).map Paper.likes_count).getD 0)
                        (resolveSession sessionId fresh) := by
                  unfold likePaperF
                  simp [hv, h1, hfind, h2, hE, h3, h4]
                refine ⟨?_, ?_, ?_⟩
                · rw [hres]
                  rintro (h | h) <;> cases h
                · rw [hres]
                  rintro h
                  cases h
                · rintro _ _ _ hf
                  rw [hf] at h4
                  simp at h4
              · have h4' : f.incrementOk = false := by simpa using h4
                have hres : likePaperF st id sessionId fresh now f
                    = (⟨st.papers,
                        st.engagements ++ [⟨id, resolveSession sessionId fresh, .like, now⟩]⟩,
                       .storeError) := by
                  unfold likePaperF
                  simp [hv, h1, hfind, h2, hE, h3, h4']
                rw [hres]
                exact ⟨by simp, fun _ => rfl, fun _ _ _ _ => rfl⟩
            · have h3' : f.insertOk = false := by simpa using h3
              have hres : likePaperF st id sessionId fresh now f = (st, .storeError) := by
                unfold likePaperF
                simp [hv, h1, hfind, h2, hE, h3']
              rw [hres]
              refine ⟨by simp, fun _ => rfl, ?_⟩
              rintro _ _ _ hf
              rw [hf] at h3
              simp at h3
          · have hres : likePaperF st id sessionId fresh now f
                = (st, .alreadyLiked P.likes_count (resolveSession sessionId fresh)) := by
              unfold likePaperF
              simp [hv, h1, hfind, h2, hE]
            rw [hres]
            refine ⟨by simp, by simp, ?_⟩
            rintro _ _ hnone _
            cases hnone
        · have h2' : f.findLikeOk = false := by simpa using h2
          have hres : likePaperF st id sessionId fresh now f = (st, .storeError) := by
            unfold likePaperF
            simp [hv, h1, hfind, h2']
          rw [hres]
          refine ⟨by simp, fun _ => rfl, ?_⟩
          rintro _ _ _ hf
          rw [hf] at h2
          simp at h2
    · have h1' : f.findPaperOk = false := by simpa using h1
      have hres : likePaperF st id sessionId fresh now f = (st, .storeError) := by
        unfold likePaperF
        simp [hv, h1']
      rw [hres]
      refine ⟨by simp, fun _ => rfl, ?_⟩
      rintro _ _ _ hf
      rw [hf] at h1
      simp at h1
  · have hv' : isValidObjectId id = false := by simpa using hv
    have hres : likePaperF st id sessionId fresh now f = (st, .invalidId) := by
      unfold likePaperF
      simp [hv']
    rw [hres]
    refine ⟨fun _ => rfl, by simp, ?_⟩
    rintro h _ _ _
    rw [hv'] at h
    cases h

/-- Closed instance of the amended C3: the inserted-but-uncounted
partial state, produced by applying the atomicity theorem. -/
theorem c3_witness :
    (isValidObjectId oidA = true
      ∧ (∃ P, c3Store.papers.find? (fun p => p.id == oidA) = some P)
      ∧ c3Store.engagements.find? (likeEntryPred oidA (resolveSession (some "s1") "u")) = none
      ∧ c3Faults = ⟨true, true, true, false⟩)
    ∧ likePaperF c3Store oidA (some "s1") "u" 5 c3Faults
        = (⟨c3Store.papers,
            c3Store.engagements ++ [⟨oidA, resolveSession (some "s1") "u", .like, 5⟩]⟩,
           .storeError) :=
  ⟨⟨by decide, ⟨c3Paper, by decide⟩, by decide, by decide⟩,
   (c3_like_atomicity c3Store oidA (some "s1") "u" 5 c3Faults).2.2 (by decide)
     ⟨c3Paper, by decide⟩ (by decide) (by decide)⟩

/-- Recording evaluation of `viewPaper`: no view by this session within
the last hour, so a ledger entry is inserted and the counter bumped. -/
theorem viewPaper_insert (st : Store) (id : String) (sessionId : Option String)
    (fresh : String) (now : Int) (P : Paper)
    (hval : isValidObjectId id = true)
    (hP : st.papers.find? (fun p => p.id == id) = some P)
    (hV : st.engagements.find?
        (viewEntryPredRecent id (resolveSession sessionId fresh) (now - 3600000)) = none) :
    viewPaper st id sessionId fresh now
      = (⟨updatePaper st.papers id (fun p => { p with views_count := p.views_count + 1 }),
          st.engagements ++ [⟨id, resolveSession sessionId fresh, .view, now⟩]⟩,
         .tracked (resolveSession sessionId fresh)) := by
  unfold viewPaper
  simp [hval, hP, hV]

/-- Throttled evaluation of `viewPaper`: a view by this session exists
within the last hour, so nothing is written. -/
theorem viewPaper_noop (st : Store) (id : String) (sessionId : Option String)
    (fresh : String) (now : Int) (P : Paper) (e : Engagement)
    (hval : isValidObjectId id = true)
    (hP : st.papers.find? (fun p => p.id == id) = some P)
    (hV : st.engagements.find?
        (viewEntryPredRecent id (resolveSession sessionId fresh) (now - 3600000)) = some e) :
    viewPaper st id sessionId fresh now = (st, .tracked (resolveSession sessionId fresh)) := by
  unfold viewPaper
  simp [hval, hP, hV]

/-- C6.  View throttling: starting from a store with no view entries
for `(p, s)`, two view calls at most one hour apart record one ledger
entry and one increment in total, while two calls strictly more than
one hour apart record two of each.  The dedup window slides from the
first entry's timestamp. -/
theorem c6_view_throttle (st : Store) (id s fresh : String) (t1 t2 : Int) (P : Paper)
    (hval : isValidObjectId id = true)
    (hP : st.papers.find? (fun p => p.id == id) = some P)
    (hs : s ≠ "")
    (hnov : st.engagements.filter
        (fun e => e.paper_id == id && e.session_id == s && e.type == EngType.view) = [])
    (hord : t1 ≤ t2) :
    (t2 - t1 ≤ 3600000 →
      storedViews (viewPaper (viewPaper st id (some s) fresh t1).1 id (some s) fresh t2).1 id
          = some (P.views_count + 1)
      ∧ sessionViewCount
          (viewPaper (viewPaper st id (some s) fresh t1).1 id (some s) fresh t2).1 id s = 1)
    ∧ (3600000 < t2 - t1 →
      storedViews (viewPaper (viewPaper st id (some s) fresh t1).1 id (some s) fresh t2).1 id
          = some (P.views_count + 2)
      ∧ sessionViewCount
          (viewPaper (viewPaper st id (some s) fresh t1).1 id (some s) fresh t2).1 id s = 2) := by
  have hres : resolveSession (some s) fresh = s := resolveSession_some s fresh hs
  have hstrong : ∀ t : Int, st.engagements.find? (viewEntryPredRecent id s (t - 3600000)) = none := by
    intro t
    rw [List.find?_eq_none]
    intro e he hpred
    have htrip : (e.paper_id == id && e.session_id == s && e.type == EngType.view) = true := by
      simp only [viewEntryPredRecent, Bool.and_eq_true] at hpred
      simp only [Bool.and_eq_true]
      exact hpred.1
    have : e ∈ st.engagements.filter
        (fun e => e.paper_id == id && e.session_id == s && e.type == EngType.view) :=
      List.mem_filter.mpr ⟨he, htrip⟩
    rw [hnov] at this
    cases this
  have hstep1 := viewPaper_insert st id (some s) fresh t1 P hval hP (by rw [hres]; exact hstrong t1)
  rw [hres] at hstep1
  have hP1 : (Store.mk
      (updatePaper st.papers id (fun p => { p with views_count := p.views_count + 1 }))
      (st.engagements ++ [(⟨id, s, .view, t1⟩ : Engagement)])).papers.find? (fun p => p.id == id)
      = some { P with views_count := P.views_count + 1 } := by
    show (updatePaper st.papers id _).find? _ = _
    rw [find?_updatePaper st.papers id
      (fun p => { p with views_count := p.views_count + 1 }) (fun p => rfl), hP]
    rfl
  have hfilv : st.engagements.filter
      (fun e => e.paper_id == id && e.session_id == s && e.type == EngType.view) = [] := hnov
  constructor
  · intro hwin
    have hpred2 : viewEntryPredRecent id s (t2 - 3600000) ⟨id, s, .view, t1⟩ = true := by
      simp [viewEntryPredRecent]
      omega
    have hfind2 : (st.engagements ++ [(⟨id, s, .view, t1⟩ : Engagement)]).find?
        (viewEntryPredRecent id s (t2 - 3600000)) = some ⟨id, s, .view, t1⟩ := by
      rw [List.find?_append, hstrong t2]
      simp [hpred2]
    have hstep2 := viewPaper_noop _ id (some s) fresh t2 _ _ hval hP1 (by rw [hres]; exact hfind2)
    rw [hstep1]
    simp only []
    rw [hstep2]
    constructor
    · unfold storedViews
      rw [hP1]
      rfl
    · unfold sessionViewCount
      show ((st.engagements ++ [(⟨id, s, .view, t1⟩ : Engagement)]).filter _).length = 1
      rw [List.filter_append, hfilv]
      simp
  · intro hout
    have hpred2 : viewEntryPredRecent id s (t2 - 3600000) ⟨id, s, .view, t1⟩ = false := by
      simp [viewEntryPredRecent]
      omega
    have hfind2 : (st.engagements ++ [(⟨id, s, .view, t1⟩ : Engagement)]).find?
        (viewEntryPredRecent id s (t2 - 3600000)) = none := by
      rw [List.find?_append, hstrong t2]
      simp [hpred2]
    have hstep2 := viewPaper_insert _ id (some s) fresh t2 _ hval hP1 (by rw [hres]; exact hfind2)
    rw [hres] at hstep2
    rw [hstep1]
    simp only []
    rw [hstep2]
    constructor
    · unfold storedViews
      show ((updatePaper (updatePaper st.papers id _) id _).find? _).map _ = _
      rw [find?_updatePaper _ id
        (fun p => { p with views_count := p.views_count + 1 }) (fun p => rfl)]
      rw [find?_updatePaper st.papers id
        (fun p => { p with views_count := p.views_count + 1 }) (fun p => rfl), hP]
      simp only [Option.map_some', Option.some.injEq]
      omega
    · unfold sessionViewCount
      show (((st.engagements ++ [(⟨id, s, .view, t1⟩ : Engagement)])
          ++ [(⟨id, s, .view, t2⟩ : Engagement)]).filter _).length = 2
      rw [List.filter_append, List.filter_append, hfilv]
      simp

/-- Closed instance of C6: two calls exactly one hour apart (throttled)
on the base store. -/
theorem c6_witness :
    (isValidObjectId oidA = true
      ∧ baseStore.papers.find? (fun p => p.id == oidA) = some basePaper
      ∧ "s1" ≠ ""
      ∧ baseStore.engagements.filter
          (fun e => e.paper_id == oidA && e.session_id == "s1" && e.type == EngType.view) = []
      ∧ (0 : Int) ≤ 3600000
      ∧ (3600000 : Int) - 0 ≤ 3600000)
    ∧ (storedViews
          (viewPaper (viewPaper baseStore oidA (some "s1") "u" 0).1 oidA
            (some "s1") "u" 3600000).1 oidA = some (basePaper.views_count + 1)
      ∧ sessionViewCount
          (viewPaper (viewPaper baseStore oidA (some "s1") "u" 0).1 oidA
            (some "s1") "u" 3600000).1 oidA "s1" = 1) :=
  ⟨⟨by decide, by decide, by decide, by decide, by decide, by decide⟩,
   (c6_view_throttle baseStore oidA "s1" "u" 0 3600000 basePaper (by decide) (by decide)
     (by decide) (by decide) (by decide)).1 (by decide)⟩

/-- C9.  Requests that omit `sessionId` get a fresh UUID which is used
and echoed back; two session-less like calls therefore use distinct
sessions, both insert and both increment (no idempotence across such
calls); only `unlikePaper` rejects a missing session id. -/
theorem c9_generated_sessions (st : Store) (id u1 u2 fresh2 : String)
    (now1 now2 now3 : Int) (P : Paper)
    (hval : isValidObjectId id = true)
    (hP : st.papers.find? (fun p => p.id == id) = some P)
    (hu1 : st.engagements.find? (likeEntryPred id u1) = none)
    (hu2 : st.engagements.find? (likeEntryPred id u2) = none)
    (hne : u1 ≠ u2) :
    (likePaper st id none u1 now1).2 = .liked (P.likes_count + 1) u1
    ∧ (likePaper (likePaper st id none u1 now1).1 id none u2 now2).2
        = .liked (P.likes_count + 1 + 1) u2
    ∧ storedLikes (likePaper (likePaper st id none u1 now1).1 id none u2 now2).1 id
        = some (P.likes_count + 1 + 1)
    ∧ sessionLikeCount (likePaper (likePaper st id none u1 now1).1 id none u2 now2).1 id u1 = 1
    ∧ sessionLikeCount (likePaper (likePaper st id none u1 now1).1 id none u2 now2).1 id u2 = 1
    ∧ (∀ st2 id2 now4, unlikePaper st2 id2 none now4 = (st2, .sessionRequired))
    ∧ (viewPaper st id none fresh2 now3).2 = .tracked fresh2 := by
  have hstep1 := likePaper_insert st id none u1 now1 P hval hP hu1
  rw [resolveSession_none] at hstep1
  have hP1 : (Store.mk
      (updatePaper st.papers id (fun p => { p with likes_count := p.likes_count + 1 }))
      (st.engagements ++ [(⟨id, u1, .like, now1⟩ : Engagement)])).papers.find?
        (fun p => p.id == id)
      = some { P with likes_count := P.likes_count + 1 } := by
    show (updatePaper st.papers id _).find? _ = _
    rw [find?_updatePaper st.papers id
      (fun p => { p with likes_count := p.likes_count + 1 }) (fun p => rfl), hP]
    rfl
  have hpredu2 : likeEntryPred id u2 ⟨id, u1, .like, now1⟩ = false := by
    have : (u1 == u2) = false := beq_eq_false_iff_ne.mpr hne
    simp [likeEntryPred, this]
  have hE1 : (Store.mk
      (updatePaper st.papers id (fun p => { p with likes_count := p.likes_count + 1 }))
      (st.engagements ++ [(⟨id, u1, .like, now1⟩ : Engagement)])).engagements.find?
        (likeEntryPred id u2) = none := by
    show (st.engagements ++ [(⟨id, u1, .like, now1⟩ : Engagement)]).find? _ = _
    rw [List.find?_append, hu2]
    simp [hpredu2]
  have hstep2 := likePaper_insert _ id none u2 now2 _ hval hP1 (by
    rw [resolveSession_none]; exact hE1)
  rw [resolveSession_none] at hstep2
  have hfilu1 : st.engagements.filter (likeEntryPred id u1) = [] :=
    List.filter_eq_nil_iff.mpr (fun e he => (List.find?_eq_none.mp hu1) e he)
  have hfilu2 : st.engagements.filter (likeEntryPred id u2) = [] :=
    List.filter_eq_nil_iff.mpr (fun e he => (List.find?_eq_none.mp hu2) e he)
  have hpredu1 : likeEntryPred id u1 ⟨id, u2, .like, now2⟩ = false := by
    have : (u2 == u1) = false := beq_eq_false_iff_ne.mpr (Ne.symm hne)
    simp [likeEntryPred, this]
  refine ⟨?_, ?_, ?_, ?_, ?_, ?_, ?_⟩
  · rw [hstep1]
  · rw [hstep1]
    simp only []
    rw [hstep2]
  · rw [hstep1]
    simp only []
    rw [hstep2]
    unfold storedLikes
    show ((updatePaper (updatePaper st.papers id _) id _).find? _).map _ = _
    rw [find?_updatePaper _ id
      (fun p => { p with likes_count := p.likes_count + 1 }) (fun p => rfl)]
    rw [find?_updatePaper st.papers id
      (fun p => { p with likes_count := p.likes_count + 1 }) (fun p => rfl), hP]
    rfl
  · rw [hstep1]
    simp only []
    rw [hstep2]
    unfold sessionLikeCount
    show (((st.engagements ++ [(⟨id, u1, .like, now1⟩ : Engagement)])
        ++ [(⟨id, u2, .like, now2⟩ : Engagement)]).filter (likeEntryPred id u1)).length = 1
    rw [List.filter_append, List.filter_append, hfilu1]
    simp [likeEntryPred_self, hpredu1]
  · rw [hstep1]
    simp only []
    rw [hstep2]
    unfold sessionLikeCount
    show (((st.engagements ++ [(⟨id, u1, .like, now1⟩ : Engagement)])
        ++ [(⟨id, u2, .like, now2⟩ : Engagement)]).filter (likeEntryPred id u2)).length = 1
    rw [List.filter_append, List.filter_append, hfilu2]
    simp [likeEntryPred_self, hpredu2]
  · intro st2 id2 now4
    rfl
  · unfold viewPaper
    simp only [resolveSession_none, hval, Bool.not_true, Bool.false_eq_true, if_false, hP]
    rcases hfind : st.engagements.find? (viewEntryPredRecent id fresh2 (now3 - 3600000))
      with _ | e <;> simp

/-- Closed instance of C9: two session-less like calls on the base
store with distinct generated UUIDs. -/
theorem c9_witness :
    (isValidObjectId oidA = true
      ∧ baseStore.papers.find? (fun p => p.id == oidA) = some basePaper
      ∧ baseStore.engagements.find? (likeEntryPred oidA "uuid-1") = none
      ∧ baseStore.engagements.find? (likeEntryPred oidA "uuid-2") = none
      ∧ "uuid-1" ≠ "uuid-2")
    ∧ ((likePaper baseStore oidA none "uuid-1" 1).2 = .liked (basePaper.likes_count + 1) "uuid-1"
      ∧ (likePaper (likePaper baseStore oidA none "uuid-1" 1).1 oidA none "uuid-2" 2).2
          = .liked (basePaper.likes_count + 1 + 1) "uuid-2"
      ∧ storedLikes (likePaper (likePaper baseStore oidA none "uuid-1" 1).1 oidA
          none "uuid-2" 2).1 oidA = some (basePaper.likes_count + 1 + 1)
      ∧ sessionLikeCount (likePaper (likePaper baseStore oidA none "uuid-1" 1).1 oidA
          none "uuid-2" 2).1 oidA "uuid-1" = 1
      ∧ sessionLikeCount (likePaper (likePaper baseStore oidA none "uuid-1" 1).1 oidA
          none "uuid-2" 2).1 oidA "uuid-2" = 1
      ∧ (∀ st2 id2 now4, unlikePaper st2 id2 none now4 = (st2, .sessionRequired))
      ∧ (viewPaper baseStore oidA none "uuid-3" 3).2 = .tracked "uuid-3") :=
  ⟨⟨by decide, by decide, by decide, by decide, by decide⟩,
   c9_generated_sessions baseStore oidA "uuid-1" "uuid-2" "uuid-3" 1 2 3 basePaper
     (by decide) (by decide) (by decide) (by decide) (by decide)⟩

/-- C8 counterexample.  A non-numeric page is not clamped to 1:
`parseInt` yields `NaN`, `Math.max(1, NaN)` is `NaN`, and the request
proceeds with a `NaN` skip instead of succeeding as page 1. -/
theorem c8_counterexample :
    feedPageNum (some "abc") = none
    ∧ feedPageNum (some "abc") ≠ some 1
    ∧ getFeed [] (some "abc") none none none none = .nanParams
    ∧ getFeed [] (some "abc") none none none none
        ≠ getFeed [] (some "1") none none none none := by
  decide

/-- C8 amended.  Numeric `limit` values are clamped into `[1,100]` and
numeric `page` values below 1 (zero or negative) are clamped to 1
(`limit=500` gives 100, `page=0` gives 1); but non-numeric page or
limit values parse to `NaN`, which `Math.max`/`Math.min` propagate
instead of clamping. -/
theorem c8_boundary_clamping :
    (∀ s n, parseIntJS s = some n →
      feedPageNum (some s) = some (max 1 n)
        ∧ feedLimitNum (some s) = some (min 100 (max 1 n)))
    ∧ feedLimitNum (some "500") = some 100
    ∧ feedPageNum (some "0") = some 1
    ∧ feedPageNum (some "-3") = some 1
    ∧ (∀ s, parseIntJS s = none →
        feedPageNum (some s) = none ∧ feedLimitNum (some s) = none) := by
  refine ⟨?_, by decide, by decide, by decide, ?_⟩
  · intro s n h
    constructor
    · simp [feedPageNum, pageParsed, h]
    · simp [feedLimitNum, limitParsed, h]
  · intro s h
    constructor
    · simp [feedPageNum, pageParsed, h]
    · simp [feedLimitNum, limitParsed, h]

/-- Closed instance of the amended C8 at numeric inputs. -/
theorem c8_witness :
    (parseIntJS "500" = some 500
      ∧ (feedPageNum (some "500") = some (max 1 500)
        ∧ feedLimitNum (some "500") = some (min 100 (max 1 500))))
    ∧ (parseIntJS "abc" = none
      ∧ (feedPageNum (some "abc") = none ∧ feedLimitNum (some "abc") = none)) :=
  ⟨⟨by decide, c8_boundary_clamping.1 "500" 500 (by decide)⟩,
   ⟨by decide, c8_boundary_clamping.2.2.2.2 "abc" (by decide)⟩⟩

/-- C10.  Trending coerces differently from the feed: numeric limits
clamp into `[1,50]` (a requested 100 becomes 50, so at most 50 items
are returned), and any `timeWindow` outside the set 1, 7, 30 —
including non-numeric values — is coerced to 7. -/
theorem c10_trending_coercion :
    (∀ s n, parseIntJS s = some n → trendingLimitNum (some s) = some (min 50 (max 1 n)))
    ∧ trendingLimitNum (some "100") = some 50
    ∧ (∀ tw : Option String, trendingWindowNum tw = 1 ∨ trendingWindowNum tw = 7
        ∨ trendingWindowNum tw = 30)
    ∧ (∀ s n, parseIntJS s = some n → ¬(n = 1 ∨ n = 7 ∨ n = 30) →
        trendingWindowNum (some s) = 7)
    ∧ (∀ s, parseIntJS s = none → trendingWindowNum (some s) = 7)
    ∧ (∀ papers pgQ twQ cat now items pg l tot tp W,
        getTrending papers pgQ (some "100") twQ cat now = .ok items pg l tot tp W →
        items.length ≤ 50) := by
  have hwin : ∀ tw : Option String, trendingWindowNum tw = 1 ∨ trendingWindowNum tw = 7
      ∨ trendingWindowNum tw = 30 := by
    intro tw
    unfold trendingWindowNum
    rcases hm : (match tw with | none => some 7 | some s => parseIntJS s) with _ | n
    · rw [hm]
      exact Or.inr (Or.inl rfl)
    · rw [hm]
      by_cases h1 : (n == 1 || n == 7 || n == 30) = true
      · simp only [if_pos h1]
        simp only [Bool.or_eq_true, beq_iff_eq] at h1
        rcases h1 with (h | h) | h
        · exact Or.inl h
        · exact Or.inr (Or.inl h)
        · exact Or.inr (Or.inr h)
      · simp only [if_neg h1]
        tauto
  refine ⟨?_, by decide, hwin, ?_, ?_, ?_⟩
  · intro s n h
    simp [trendingLimitNum, h]
  · intro s n h hn
    unfold trendingWindowNum
    simp only [h]
    have h1 : (n == 1 || n == 7 || n == 30) = false := by
      simp only [Bool.or_eq_false_iff, beq_eq_false_iff_ne]
      push_neg at hn
      exact ⟨⟨hn.1, hn.2.1⟩, hn.2.2⟩
    simp only [h1, Bool.false_eq_true, if_false]
  · intro s h
    unfold trendingWindowNum
    simp only [h]
  · intro papers pgQ twQ cat now items pg l tot tp W h
    unfold getTrending at h
    rcases hp : (pageParsed pgQ).map (fun n => max 1 n) with _ | pg2
    · rw [hp] at h
      cases h
    · rw [hp] at h
      have hl : trendingLimitNum (some "100") = some 50 := by decide
      rw [hl] at h
      simp only [TrendOutcome.ok.injEq] at h
      obtain ⟨hitems, _⟩ := h
      rw [← hitems]
      have := List.length_take_le ((50 : Int).toNat)
        ((trendingRanked papers cat now (trendingWindowNum twQ)).drop ((pg2 - 1) * 50).toNat)
      simpa using this

/-- Closed instance of C10: limit 100 clamps, window 12 coerces to 7,
and a concrete trending call returns at most 50 items. -/
theorem c10_witness :
    (parseIntJS "100" = some 100
      ∧ trendingLimitNum (some "100") = some (min 50 (max 1 100)))
    ∧ (parseIntJS "12" = some 12 ∧ ¬((12 : Int) = 1 ∨ (12 : Int) = 7 ∨ (12 : Int) = 30)
      ∧ trendingWindowNum (some "12") = 7)
    ∧ (getTrending [] none (some "100") none none 0 = .ok [] 1 50 0 0 7
      ∧ ([] : List (Paper × ℚ)).length ≤ 50) :=
  ⟨⟨by decide, c10_trending_coercion.1 "100" 100 (by decide)⟩,
   ⟨by decide, by decide, c10_trending_coercion.2.2.2.1 "12" 12 (by decide) (by decide)⟩,
   ⟨by simp [getTrending, trendingRanked, trendingCandidates, pageParsed, trendingLimitNum,
      trendingWindowNum, parseIntJS],
    c10_trending_coercion.2.2.2.2.2 [] none none none 0 [] 1 50 0 0 7
      (by simp [getTrending, trendingRanked, trendingCandidates, pageParsed, trendingLimitNum,
        trendingWindowNum, parseIntJS])⟩⟩

/-- C7 counterexample.  A well-formed cursor used under a sort mode it
was not built for is not rejected: with `sort=trending` the request
succeeds (the cursor is silently ignored), where the claim requires an
`InvalidCursor` failure. -/
theorem c7_counterexample :
    getFeed [c7Paper] none none none (some (Token.ok c7Data)) (some "trending")
      = .cursorOk [c7Paper] 20 false none
    ∧ getFeed [c7Paper] none none none (some (Token.ok c7Data)) (some "trending")
        ≠ .invalidCursor := by
  decide

/-- C7 amended.  A malformed or truncated token fails with
`InvalidCursor` before any query, for every store and parameter
combination; but tokens carry no sort-mode information, so a
well-formed token is never rejected under any requested sort mode (it
is applied as a boundary filter for `newest`/`popular` and silently
ignored otherwise). -/
theorem c7_cursor_decode (papers : List Paper) (page limitQ category : Option String)
    (tok : Token) (sortQ : Option String) :
    (decodeToken tok = none →
      getFeed papers page limitQ category (some tok) sortQ = .invalidCursor)
    ∧ (∀ d, decodeToken tok = some d →
        getFeed papers page limitQ category (some tok) sortQ ≠ .invalidCursor) := by
  constructor
  · intro h
    simp [getFeed, h]
  · intro d h
    rcases hl : feedLimitNum limitQ with _ | l <;>
      simp [getFeed, feedCursorResult, h, hl]

/-- Closed instance of the amended C7: a garbage token is rejected, a
well-formed one is not. -/
theorem c7_witness :
    (decodeToken (Token.garbage "not-base64-json") = none
      ∧ getFeed [c7Paper] none none none (some (Token.garbage "not-base64-json")) (some "newest")
          = .invalidCursor)
    ∧ (decodeToken (Token.ok c7Data) = some c7Data
      ∧ getFeed [c7Paper] none none none (some (Token.ok c7Data)) (some "popular")
          ≠ .invalidCursor) :=
  ⟨⟨by decide,
    (c7_cursor_decode [c7Paper] none none none (Token.garbage "not-base64-json")
      (some "newest")).1 (by decide)⟩,
   ⟨by decide,
    (c7_cursor_decode [c7Paper] none none none (Token.ok c7Data) (some "popular")).2
      c7Data (by decide)⟩⟩

/-- C5 counterexample.  The trending candidate set is not exactly the
in-window records: `c5C` lies inside the 7-day window but is excluded
because the query also requires `processed: true`.  The same store
confirms the spec scenario: the one-day-old record `c5A` (likes 10,
views 0) is ranked with score 10, the nine-day-old `c5B` is excluded. -/
theorem c5_counterexample :
    getTrending [c5A, c5B, c5C] none none none none c5Now = .ok [(c5A, 10)] 1 20 1 1 7
    ∧ (c5Now - 7 * msPerDay ≤ c5C.created_at ∧ c5C.created_at ≤ c5Now)
    ∧ (∀ x ∈ [((c5A : Paper), (10 : ℚ))], x.1 ≠ c5C) := by
  have hscore : trendingScore c5Now c5A = 10 := by
    unfold trendingScore daysOld engagementScore c5A c5Now
    norm_num
  refine ⟨?_, by decide, by decide⟩
  simp [getTrending, trendingRanked, trendingCandidates, pageParsed, trendingLimitNum,
    trendingWindowNum, parseIntJS, hscore] <;> decide

/-- C5 amended.  With numeric page and limit, trending returns the
paginated slice of the ranked list; the ranked list is exactly the
candidates — records with `processed = true` and `created_at ≥ now − W
days` (no upper bound at `now`) matching the category — each paired
with its score, sorted by score then creation time descending; and for
records no newer than `now` the score equals
`(likes*2 + views) / (fractional age in days + 1)`. -/
theorem c5_trending_scoring (papers : List Paper) (pgQ limQ twQ cat : Option String)
    (now pg l : Int)
    (h1 : (pageParsed pgQ).map (fun n => max 1 n) = some pg)
    (h2 : trendingLimitNum limQ = some l) :
    getTrending papers pgQ limQ twQ cat now
      = .ok (((trendingRanked papers cat now (trendingWindowNum twQ)).drop
            ((pg - 1) * l).toNat).take l.toNat)
          pg l ((trendingCandidates papers cat now (trendingWindowNum twQ)).length)
          ((((trendingCandidates papers cat now (trendingWindowNum twQ)).length : Int) + l - 1) / l)
          (trendingWindowNum twQ)
    ∧ (trendingRanked papers cat now (trendingWindowNum twQ)).Perm
        ((trendingCandidates papers cat now (trendingWindowNum twQ)).map
          (fun p => (p, trendingScore now p)))
    ∧ List.Pairwise trendScoreRel (trendingRanked papers cat now (trendingWindowNum twQ))
    ∧ (∀ p ∈ trendingCandidates papers cat now (trendingWindowNum twQ),
        p.processed = true
          ∧ now - trendingWindowNum twQ * msPerDay ≤ p.created_at
          ∧ catMatch cat p = true)
    ∧ (∀ p : Paper, p.created_at ≤ now →
        trendingScore now p
          = ((p.likes_count * 2 + p.views_count : Int) : ℚ) / (daysOld now p.created_at + 1)) := by
  refine ⟨?_, ?_, ?_, ?_, ?_⟩
  · unfold getTrending
    rw [h1, h2]
  · exact List.perm_insertionSort trendScoreRel _
  · exact List.sorted_insertionSort trendScoreRel _
  · intro p hp
    obtain ⟨-, hmatch⟩ := List.mem_filter.mp hp
    simp only [trendingMatch, Bool.and_eq_true, decide_eq_true_eq] at hmatch
    exact ⟨hmatch.1.1, hmatch.1.2, hmatch.2⟩
  · intro p hle
    unfold trendingScore engagementScore
    by_cases hd : daysOld now p.created_at = 0
    · rw [if_pos hd, hd]
      norm_num
    · rw [if_neg hd]

/-- Closed instance of the amended C5 on the spec's trending scenario
store (a one-day-old and a nine-day-old record, window 7). -/
theorem c5_witness :
    ((pageParsed (none : Option String)).map (fun n => max 1 n) = some 1
      ∧ trendingLimitNum none = some 20)
    ∧ (getTrending [c5A, c5B] none none none none c5Now
        = .ok (((trendingRanked [c5A, c5B] none c5Now (trendingWindowNum none)).drop
              (((1 : Int) - 1) * 20).toNat).take (20 : Int).toNat)
            1 20 ((trendingCandidates [c5A, c5B] none c5Now (trendingWindowNum none)).length)
            ((((trendingCandidates [c5A, c5B] none c5Now
                (trendingWindowNum none)).length : Int) + 20 - 1) / 20)
            (trendingWindowNum none)
      ∧ (trendingRanked [c5A, c5B] none c5Now (trendingWindowNum none)).Perm
          ((trendingCandidates [c5A, c5B] none c5Now (trendingWindowNum none)).map
            (fun p => (p, trendingScore c5Now p)))
      ∧ List.Pairwise trendScoreRel (trendingRanked [c5A, c5B] none c5Now (trendingWindowNum none))
      ∧ (∀ p ∈ trendingCandidates [c5A, c5B] none c5Now (trendingWindowNum none),
          p.processed = true
            ∧ c5Now - trendingWindowNum none * msPerDay ≤ p.created_at
            ∧ catMatch none p = true)
      ∧ (∀ p : Paper, p.created_at ≤ c5Now →
          trendingScore c5Now p
            = ((p.likes_count * 2 + p.views_count : Int) : ℚ)
                / (daysOld c5Now p.created_at + 1))) :=
  ⟨⟨by decide, by decide⟩,
   c5_trending_scoring [c5A, c5B] none none none none c5Now 1 20 (by decide) (by decide)⟩

theorem entryCount_middle (l₁ l₂ : List Engagement) (e : Engagement) (t : EngType)
    (pid : String) :
    entryCount (l₁ ++ e :: l₂) t pid
      = entryCount (l₁ ++ l₂) t pid
        + (if (e.paper_id == pid && e.type == t) = true then 1 else 0) := by
  unfold entryCount
  by_cases h : (e.paper_id == pid && e.type == t) = true <;>
    simp [List.filter_append, List.filter_cons, h] <;> push_cast <;> omega

theorem entryCount_append_match (es : List Engagement) (e : Engagement) (t : EngType)
    (pid : String) (h : (e.paper_id == pid && e.type == t) = true) :
    entryCount (es ++ [e]) t pid = entryCount es t pid + 1 := by
  rw [entryCount_append_one, if_pos h]

theorem entryCount_append_nomatch (es : List Engagement) (e : Engagement) (t : EngType)
    (pid : String) (h : (e.paper_id == pid && e.type == t) = false) :
    entryCount (es ++ [e]) t pid = entryCount es t pid := by
  rw [entryCount_append_one, if_neg (by simp [h])]
  omega

theorem entryCount_middle_match (l₁ l₂ : List Engagement) (e : Engagement) (t : EngType)
    (pid : String) (h : (e.paper_id == pid && e.type == t) = true) :
    entryCount (l₁ ++ e :: l₂) t pid = entryCount (l₁ ++ l₂) t pid + 1 := by
  rw [entryCount_middle, if_pos h]

theorem entryCount_middle_nomatch (l₁ l₂ : List Engagement) (e : Engagement) (t : EngType)
    (pid : String) (h : (e.paper_id == pid && e.type == t) = false) :
    entryCount (l₁ ++ e :: l₂) t pid = entryCount (l₁ ++ l₂) t pid := by
  rw [entryCount_middle, if_neg (by simp [h])]
  omega

/-- Inserting a like entry for a present paper id and bumping that
paper's counter preserves consistency. -/
theorem consistent_like_insert (st : Store) (id sid : String) (now : Int)
    (hc : Consistent st) (hex : ∃ P, st.papers.find? (fun p => p.id == id) = some P) :
    Consistent ⟨updatePaper st.papers id (fun p => { p with likes_count := p.likes_count + 1 }),
                st.engagements ++ [⟨id, sid, .like, now⟩]⟩ := by
  obtain ⟨hnd, hcnt⟩ := hc
  constructor
  · show (List.map Paper.id (updatePaper st.papers id _)).Nodup
    rw [map_id_updatePaper st.papers id
      (fun p => { p with likes_count := p.likes_count + 1 }) (fun p => rfl)]
    exact hnd
  · intro q hq
    rw [show (Store.mk (updatePaper st.papers id
        (fun p => { p with likes_count := p.likes_count + 1 }))
        (st.engagements ++ [(⟨id, sid, .like, now⟩ : Engagement)])).papers
      = updatePaper st.papers id (fun p => { p with likes_count := p.likes_count + 1 }) from rfl,
      updatePaper_eq_map _ _ _ hnd] at hq
    obtain ⟨p, hp, hpq⟩ := List.mem_map.mp hq
    have hcl := (hcnt p hp).1
    have hcv := (hcnt p hp).2
    by_cases hid : (p.id == id) = true
    · have hpid : p.id = id := by simpa using hid
      rw [if_pos hid] at hpq
      subst hpq
      have hmatchL : ((⟨id, sid, .like, now⟩ : Engagement).paper_id == p.id
          && (⟨id, sid, .like, now⟩ : Engagement).type == EngType.like) = true := by
        show (id == p.id && _) = true
        rw [hpid]
        simp
      have hmatchV : ((⟨id, sid, .like, now⟩ : Engagement).paper_id == p.id
          && (⟨id, sid, .like, now⟩ : Engagement).type == EngType.view) = false := by
        simp
      constructor
      · show p.likes_count + 1 = typeCount _ .like p.id
        unfold typeCount
        rw [show (Store.mk _ (st.engagements ++ [(⟨id, sid, .like, now⟩ : Engagement)])).engagements
          = st.engagements ++ [(⟨id, sid, .like, now⟩ : Engagement)] from rfl]
        rw [entryCount_append_match _ _ _ _ hmatchL]
        unfold typeCount at hcl
        omega
      · show p.views_count = typeCount _ .view p.id
        unfold typeCount
        rw [show (Store.mk _ (st.engagements ++ [(⟨id, sid, .like, now⟩ : Engagement)])).engagements
          = st.engagements ++ [(⟨id, sid, .like, now⟩ : Engagement)] from rfl]
        rw [entryCount_append_nomatch _ _ _ _ hmatchV]
        unfold typeCount at hcv
        omega
    · rw [if_neg hid] at hpq
      subst hpq
      have hne : ((⟨id, sid, .like, now⟩ : Engagement).paper_id == p.id) = false := by
        show (id == p.id) = false
        rw [beq_eq_false_iff_ne]
        intro h
        exact hid (by simp [h.symm])
      constructor
      · show p.likes_count = typeCount _ .like p.id
        unfold typeCount
        rw [show (Store.mk _ (st.engagements ++ [(⟨id, sid, .like, now⟩ : Engagement)])).engagements
          = st.engagements ++ [(⟨id, sid, .like, now⟩ : Engagement)] from rfl]
        rw [entryCount_append_nomatch _ _ _ _ (by
          show ((⟨id, sid, .like, now⟩ : Engagement).paper_id == p.id
            && (⟨id, sid, .like, now⟩ : Engagement).type == EngType.like) = false
          simp [hne])]
        unfold typeCount at hcl
        omega
      · show p.views_count = typeCount _ .view p.id
        unfold typeCount
        rw [show (Store.mk _ (st.engagements ++ [(⟨id, sid, .like, now⟩ : Engagement)])).engagements
          = st.engagements ++ [(⟨id, sid, .like, now⟩ : Engagement)] from rfl]
        rw [entryCount_append_nomatch _ _ _ _ (by
          show ((⟨id, sid, .like, now⟩ : Engagement).paper_id == p.id
            && (⟨id, sid, .like, now⟩ : Engagement).type == EngType.view) = false
          simp [hne])]
        unfold typeCount at hcv
        omega

/-- Inserting a view entry for a present paper id and bumping that
paper's view counter preserves consistency. -/
theorem consistent_view_insert (st : Store) (id sid : String) (now : Int)
    (hc : Consistent st) (hex : ∃ P, st.papers.find? (fun p => p.id == id) = some P) :
    Consistent ⟨updatePaper st.papers id (fun p => { p with views_count := p.views_count + 1 }),
                st.engagements ++ [⟨id, sid, .view, now⟩]⟩ := by
  obtain ⟨hnd, hcnt⟩ := hc
  constructor
  · show (List.map Paper.id (updatePaper st.papers id _)).Nodup
    rw [map_id_updatePaper st.papers id
      (fun p => { p with views_count := p.views_count + 1 }) (fun p => rfl)]
    exact hnd
  · intro q hq
    rw [show (Store.mk (updatePaper st.papers id
        (fun p => { p with views_count := p.views_count + 1 }))
        (st.engagements ++ [(⟨id, sid, .view, now⟩ : Engagement)])).papers
      = updatePaper st.papers id (fun p => { p with views_count := p.views_count + 1 }) from rfl,
      updatePaper_eq_map _ _ _ hnd] at hq
    obtain ⟨p, hp, hpq⟩ := List.mem_map.mp hq
    have hcl := (hcnt p hp).1
    have hcv := (hcnt p hp).2
    by_cases hid : (p.id == id) = true
    · have hpid : p.id = id := by simpa using hid
      rw [if_pos hid] at hpq
      subst hpq
      constructor
      · show p.likes_count = typeCount _ .like p.id
        unfold typeCount
        rw [show (Store.mk _ (st.engagements ++ [(⟨id, sid, .view, now⟩ : Engagement)])).engagements
          = st.engagements ++ [(⟨id, sid, .view, now⟩ : Engagement)] from rfl]
        rw [entryCount_append_nomatch _ _ _ _ (by
          show ((⟨id, sid, .view, now⟩ : Engagement).paper_id == p.id
            && (⟨id, sid, .view, now⟩ : Engagement).type == EngType.like) = false
          simp)]
        unfold typeCount at hcl
        omega
      · show p.views_count + 1 = typeCount _ .view p.id
        unfold typeCount
        rw [show (Store.mk _ (st.engagements ++ [(⟨id, sid, .view, now⟩ : Engagement)])).engagements
          = st.engagements ++ [(⟨id, sid, .view, now⟩ : Engagement)] from rfl]
        rw [entryCount_append_match _ _ _ _ (by
          show (id == p.id && _) = true
          rw [hpid]
          simp)]
        unfold typeCount at hcv
        omega
    · rw [if_neg hid] at hpq
      subst hpq
      have hne : ((⟨id, sid, .view, now⟩ : Engagement).paper_id == p.id) = false := by
        show (id == p.id) = false
        rw [beq_eq_false_iff_ne]
        intro h
        exact hid (by simp [h.symm])
      constructor
      · show p.likes_count = typeCount _ .like p.id
        unfold typeCount
        rw [show (Store.mk _ (st.engagements ++ [(⟨id, sid, .view, now⟩ : Engagement)])).engagements
          = st.engagements ++ [(⟨id, sid, .view, now⟩ : Engagement)] from rfl]
        rw [entryCount_append_nomatch _ _ _ _ (by
          show ((⟨id, sid, .view, now⟩ : Engagement).paper_id == p.id
            && (⟨id, sid, .view, now⟩ : Engagement).type == EngType.like) = false
          simp [hne])]
        unfold typeCount at hcl
        omega
      · show p.views_count = typeCount _ .view p.id
        unfold typeCount
        rw [show (Store.mk _ (st.engagements ++ [(⟨id, sid, .view, now⟩ : Engagement)])).engagements
          = st.engagements ++ [(⟨id, sid, .view, now⟩ : Engagement)] from rfl]
        rw [entryCount_append_nomatch _ _ _ _ (by
          show ((⟨id, sid, .view, now⟩ : Engagement).paper_id == p.id
            && (⟨id, sid, .view, now⟩ : Engagement).type == EngType.view) = false
          simp [hne])]
        unfold typeCount at hcv
        omega

/-- Deleting one like entry of a present paper and decrementing that
paper's counter preserves consistency. -/
theorem consistent_unlike_delete (st : Store) (id sid : String)
    (hc : Consistent st)
    (hdel : (deleteFirst (likeEntryPred id sid) st.engagements).2 = 1) :
    Consistent ⟨updatePaper st.papers id (fun p => { p with likes_count := p.likes_count - 1 }),
                (deleteFirst (likeEntryPred id sid) st.engagements).1⟩ := by
  obtain ⟨hnd, hcnt⟩ := hc
  obtain ⟨l₁, e, l₂, hes, hpred, -, hrest⟩ := deleteFirst_one _ _ hdel
  have hepid : e.paper_id = id := by
    have := hpred
    simp only [likeEntryPred, Bool.and_eq_true, beq_iff_eq] at this
    exact this.1.1
  have hetype : e.type = EngType.like := by
    have := hpred
    simp only [likeEntryPred, Bool.and_eq_true, beq_iff_eq] at this
    exact this.2
  constructor
  · show (List.map Paper.id (updatePaper st.papers id _)).Nodup
    rw [map_id_updatePaper st.papers id
      (fun p => { p with likes_count := p.likes_count - 1 }) (fun p => rfl)]
    exact hnd
  · intro q hq
    rw [show (Store.mk (updatePaper st.papers id
        (fun p => { p with likes_count := p.likes_count - 1 }))
        ((deleteFirst (likeEntryPred id sid) st.engagements).1)).papers
      = updatePaper st.papers id (fun p => { p with likes_count := p.likes_count - 1 }) from rfl,
      updatePaper_eq_map _ _ _ hnd] at hq
    obtain ⟨p, hp, hpq⟩ := List.mem_map.mp hq
    have hcl := (hcnt p hp).1
    have hcv := (hcnt p hp).2
    unfold typeCount at hcl hcv
    rw [hes] at hcl hcv
    by_cases hid : (p.id == id) = true
    · have hpid : p.id = id := by simpa using hid
      rw [if_pos hid] at hpq
      subst hpq
      have hmatchL : (e.paper_id == p.id && e.type == EngType.like) = true := by
        rw [hepid, hetype, hpid]
        simp
      have hmatchV : (e.paper_id == p.id && e.type == EngType.view) = false := by
        rw [hetype]
        simp
      rw [entryCount_middle_match _ _ _ _ _ hmatchL] at hcl
      rw [entryCount_middle_nomatch _ _ _ _ _ hmatchV] at hcv
      constructor
      · show p.likes_count - 1 = typeCount _ .like p.id
        unfold typeCount
        rw [show (Store.mk _ ((deleteFirst (likeEntryPred id sid) st.engagements).1)).engagements
          = (deleteFirst (likeEntryPred id sid) st.engagements).1 from rfl, hrest]
        omega
      · show p.views_count = typeCount _ .view p.id
        unfold typeCount
        rw [show (Store.mk _ ((deleteFirst (likeEntryPred id sid) st.engagements).1)).engagements
          = (deleteFirst (likeEntryPred id sid) st.engagements).1 from rfl, hrest]
        omega
    · rw [if_neg hid] at hpq
      subst hpq
      have hne : (e.paper_id == p.id) = false := by
        rw [hepid, beq_eq_false_iff_ne]
        intro h
        exact hid (by simp [h.symm])
      rw [entryCount_middle_nomatch _ _ _ _ _ (by simp [hne])] at hcl
      rw [entryCount_middle_nomatch _ _ _ _ _ (by simp [hne])] at hcv
      constructor
      · show p.likes_count = typeCount _ .like p.id
        unfold typeCount
        rw [show (Store.mk _ ((deleteFirst (likeEntryPred id sid) st.engagements).1)).engagements
          = (deleteFirst (likeEntryPred id sid) st.engagements).1 from rfl, hrest]
        omega
      · show p.views_count = typeCount _ .view p.id
        unfold typeCount
        rw [show (Store.mk _ ((deleteFirst (likeEntryPred id sid) st.engagements).1)).engagements
          = (deleteFirst (likeEntryPred id sid) st.engagements).1 from rfl, hrest]
        omega

/-- One like request preserves consistency. -/
theorem consistent_like (st : Store) (id : String) (sessionId : Option String)
    (fresh : String) (now : Int) (hc : Consistent st) :
    Consistent (likePaper st id sessionId fresh now).1 := by
  by_cases hv : isValidObjectId id = true
  · rcases hfind : st.papers.find? (fun p => p.id == id) with _ | P
    · have hres : likePaper st id sessionId fresh now = (st, .notFound) := by
        unfold likePaper likePaperF noFaults
        simp [hv, hfind]
      rw [hres]
      exact hc
    · rcases hE : st.engagements.find? (likeEntryPred id (resolveSession sessionId fresh))
        with _ | e
      · rw [likePaper_insert st id sessionId fresh now P hv hfind hE]
        exact consistent_like_insert st id (resolveSession sessionId fresh) now hc ⟨P, hfind⟩
      · rw [likePaper_noop st id sessionId fresh now P e hv hfind hE]
        exact hc
  · have hv' : isValidObjectId id = false := by simpa using hv
    have hres : likePaper st id sessionId fresh now = (st, .invalidId) := by
      unfold likePaper likePaperF noFaults
      simp [hv']
    rw [hres]
    exact hc

/-- One view request preserves consistency. -/
theorem consistent_view (st : Store) (id : String) (sessionId : Option String)
    (fresh : String) (now : Int) (hc : Consistent st) :
    Consistent (viewPaper st id sessionId fresh now).1 := by
  by_cases hv : isValidObjectId id = true
  · rcases hfind : st.papers.find? (fun p => p.id == id) with _ | P
    · have hres : viewPaper st id sessionId fresh now = (st, .notFound) := by
        unfold viewPaper
        simp [hv, hfind]
      rw [hres]
      exact hc
    · rcases hV : st.engagements.find?
        (viewEntryPredRecent id (resolveSession sessionId fresh) (now - 3600000)) with _ | e
      · rw [viewPaper_insert st id sessionId fresh now P hv hfind hV]
        exact consistent_view_insert st id (resolveSession sessionId fresh) now hc ⟨P, hfind⟩
      · rw [viewPaper_noop st id sessionId fresh now P e hv hfind hV]
        exact hc
  · have hv' : isValidObjectId id = false := by simpa using hv
    have hres : viewPaper st id sessionId fresh now = (st, .invalidId) := by
      unfold viewPaper
      simp [hv']
    rw [hres]
    exact hc

/-- Evaluation of `unlikePaper` when no like entry matches: the delete
removes nothing and nothing changes. -/
theorem unlikePaper_notLiked (st : Store) (id : String) (sessionId : Option String)
    (now : Int) (P : Paper)
    (hses : truthy sessionId = true)
    (hv : isValidObjectId id = true)
    (hP : st.papers.find? (fun p => p.id == id) = some P)
    (hdel : (deleteFirst (likeEntryPred id (sessionId.getD "")) st.engagements).2 = 0) :
    unlikePaper st id sessionId now = (st, .notLiked P.likes_count) := by
  unfold unlikePaper
  simp only [hses, Bool.not_true, Bool.false_eq_true, if_false, hv, hP]
  rw [if_pos (by simp [hdel])]
  rw [(deleteFirst_zero _ _ hdel).1]

/-- Evaluation of `unlikePaper` when a like entry is deleted: the first
matching entry is removed and the stored counter decremented; only the
response value is clamped at 0. -/
theorem unlikePaper_delete (st : Store) (id : String) (sessionId : Option String)
    (now : Int) (P : Paper)
    (hses : truthy sessionId = true)
    (hv : isValidObjectId id = true)
    (hP : st.papers.find? (fun p => p.id == id) = some P)
    (hdel : (deleteFirst (likeEntryPred id (sessionId.getD "")) st.engagements).2 = 1) :
    unlikePaper st id sessionId now
      = (⟨updatePaper st.papers id (fun p => { p with likes_count := p.likes_count - 1 }),
          (deleteFirst (likeEntryPred id (sessionId.getD "")) st.engagements).1⟩,
         .unliked (max 0 (P.likes_count - 1))) := by
  unfold unlikePaper
  simp only [hses, Bool.not_true, Bool.false_eq_true, if_false, hv, hP]
  rw [if_neg (by simp [hdel])]
  rw [find?_updatePaper st.papers id
    (fun p => { p with likes_count := p.likes_count - 1 }) (fun p => rfl), hP]
  rfl

/-- One unlike request preserves consistency. -/
theorem consistent_unlike (st : Store) (id : String) (sessionId : Option String)
    (now : Int) (hc : Consistent st) :
    Consistent (unlikePaper st id sessionId now).1 := by
  by_cases hses : truthy sessionId = true
  · by_cases hv : isValidObjectId id = true
    · rcases hfind : st.papers.find? (fun p => p.id == id) with _ | P
      · have hres : unlikePaper st id sessionId now = (st, .notFound) := by
          unfold unlikePaper
          simp [hses, hv, hfind]
        rw [hres]
        exact hc
      · rcases deleteFirst_count_zero_or_one (likeEntryPred id (sessionId.getD ""))
          st.engagements with hdel | hdel
        · rw [unlikePaper_notLiked st id sessionId now P hses hv hfind hdel]
          exact hc
        · rw [unlikePaper_delete st id sessionId now P hses hv hfind hdel]
          exact consistent_unlike_delete st id (sessionId.getD "") hc hdel
    · have hv' : isValidObjectId id = false := by simpa using hv
      have hres : unlikePaper st id sessionId now = (st, .invalidId) := by
        unfold unlikePaper
        simp [hses, hv']
      rw [hres]
      exact hc
  · have hses' : truthy sessionId = false := by simpa using hses
    have hres : unlikePaper st id sessionId now = (st, .sessionRequired) := by
      unfold unlikePaper
      simp [hses']
    rw [hres]
    exact hc

/-- Every operation preserves consistency. -/
theorem consistent_applyOp (st : Store) (op : Op) (hc : Consistent st) :
    Consistent (applyOp st op) := by
  rcases op with ⟨id, sid, fresh, now⟩ | ⟨id, sid, now⟩ | ⟨id, sid, fresh, now⟩
  · exact consistent_like st id sid fresh now hc
  · exact consistent_unlike st id sid now hc
  · exact consistent_view st id sid fresh now hc

/-- Every operation sequence preserves consistency. -/
theorem consistent_applyOps (st : Store) (ops : List Op) (hc : Consistent st) :
    Consistent (applyOps st ops) := by
  induction ops generalizing st with
  | nil => exact hc
  | cons op rest ih => exact ih (applyOp st op) (consistent_applyOp st op hc)

/-- On a consistent store, the stored counter written by unlike is the
old value when nothing was deleted and the old value minus one —
necessarily still nonnegative, hence equal to its clamp at 0 — when a
deletion occurred. -/
theorem unlike_stored_clamped (st : Store) (hc : Consistent st) (id : String)
    (sessionId : Option String) (now : Int) (P : Paper)
    (hP : st.papers.find? (fun p => p.id == id) = some P) :
    storedLikes (unlikePaper st id sessionId now).1 id
      = some (if isUnliked (unlikePaper st id sessionId now).2 = true
          then max 0 (P.likes_count - 1) else P.likes_count) := by
  have hPid : P.id = id := by
    have := List.find?_some hP
    simpa using this
  have hPmem : P ∈ st.papers := List.mem_of_find?_eq_some hP
  by_cases hses : truthy sessionId = true
  · by_cases hv : isValidObjectId id = true
    · rcases deleteFirst_count_zero_or_one (likeEntryPred id (sessionId.getD ""))
        st.engagements with hdel | hdel
      · rw [unlikePaper_notLiked st id sessionId now P hses hv hP hdel]
        unfold storedLikes isUnliked
        simp [hP]
      · rw [unlikePaper_delete st id sessionId now P hses hv hP hdel]
        unfold storedLikes isUnliked
        simp only []
        rw [find?_updatePaper st.papers id
          (fun p => { p with likes_count := p.likes_count - 1 }) (fun p => rfl), hP]
        -- a deletion occurred, so the counter was at least 1
        obtain ⟨l₁, e, l₂, hes, hpred, -, -⟩ := deleteFirst_one _ _ hdel
        have hepid : e.paper_id = id := by
          have := hpred
          simp only [likeEntryPred, Bool.and_eq_true, beq_iff_eq] at this
          exact this.1.1
        have hetype : e.type = EngType.like := by
          have := hpred
          simp only [likeEntryPred, Bool.and_eq_true, beq_iff_eq] at this
          exact this.2
        have hcl := (hc.2 P hPmem).1
        unfold typeCount at hcl
        rw [hes, entryCount_middle_match _ _ _ _ _ (by rw [hepid, hetype, hPid]; simp)] at hcl
        have hnn : 0 ≤ entryCount (l₁ ++ l₂) .like P.id := entryCount_nonneg _ _ _
        simp only [Option.map_some', Option.some.injEq, if_true]
        omega
    · have hv' : isValidObjectId id = false := by simpa using hv
      have hres : unlikePaper st id sessionId now = (st, .invalidId) := by
        unfold unlikePaper
        simp [hses, hv']
      rw [hres]
      unfold storedLikes isUnliked
      simp [hP]
  · have hses' : truthy sessionId = false := by simpa using hses
    have hres : unlikePaper st id sessionId now = (st, .sessionRequired) := by
      unfold unlikePaper
      simp [hses']
    rw [hres]
    unfold storedLikes isUnliked
    simp [hP]

/-- C2.  Counter invariant: from any consistent initial store, after
any sequence of like, unlike and view operations both counters of every
paper are nonnegative and `likes_count` equals the number of active
like ledger entries for that paper; moreover, from any such reachable
store, an unlike stores back exactly the clamp `max 0 (old - 1)` when
it deleted an entry (the decrement can never drive the stored counter
negative) and the unchanged old value when it did not. -/
theorem c2_counter_invariant (st : Store) (hc : Consistent st) (ops : List Op) :
    (∀ p ∈ (applyOps st ops).papers,
      0 ≤ p.likes_count ∧ 0 ≤ p.views_count
        ∧ p.likes_count = typeCount (applyOps st ops) .like p.id)
    ∧ (∀ (id : String) (sessionId : Option String) (now : Int) (P : Paper),
        (applyOps st ops).papers.find? (fun q => q.id == id) = some P →
        storedLikes (unlikePaper (applyOps st ops) id sessionId now).1 id
          = some (if isUnliked (unlikePaper (applyOps st ops) id sessionId now).2 = true
              then max 0 (P.likes_count - 1) else P.likes_count)) := by
  have hc' := consistent_applyOps st ops hc
  constructor
  · intro p hp
    have h1 := (hc'.2 p hp).1
    have h2 := (hc'.2 p hp).2
    refine ⟨?_, ?_, h1⟩
    · rw [h1]
      exact entryCount_nonneg _ _ _
    · rw [h2]
      exact entryCount_nonneg _ _ _
  · intro id sessionId now P hP
    exact unlike_stored_clamped (applyOps st ops) hc' id sessionId now P hP

/-- Closed instance of C2: a like, a duplicate like, a view and an
unlike on the base store. -/
theorem c2_witness :
    Consistent baseStore
    ∧ ((∀ p ∈ (applyOps baseStore
          [.like oidA (some "s1") "u1" 1, .like oidA (some "s1") "u2" 2,
           .view oidA (some "s2") "u3" 3, .unlike oidA (some "s1") 4]).papers,
        0 ≤ p.likes_count ∧ 0 ≤ p.views_count
          ∧ p.likes_count = typeCount (applyOps baseStore
              [.like oidA (some "s1") "u1" 1, .like oidA (some "s1") "u2" 2,
               .view oidA (some "s2") "u3" 3, .unlike oidA (some "s1") 4]) .like p.id)
      ∧ (∀ (id : String) (sessionId : Option String) (now : Int) (P : Paper),
          (applyOps baseStore
            [.like oidA (some "s1") "u1" 1, .like oidA (some "s1") "u2" 2,
             .view oidA (some "s2") "u3" 3, .unlike oidA (some "s1") 4]).papers.find?
              (fun q => q.id == id) = some P →
          storedLikes (unlikePaper (applyOps baseStore
            [.like oidA (some "s1") "u1" 1, .like oidA (some "s1") "u2" 2,
             .view oidA (some "s2") "u3" 3, .unlike oidA (some "s1") 4]) id sessionId now).1 id
            = some (if isUnliked (unlikePaper (applyOps baseStore
                [.like oidA (some "s1") "u1" 1, .like oidA (some "s1") "u2" 2,
                 .view oidA (some "s2") "u3" 3, .unlike oidA (some "s1") 4]) id sessionId
                  now).2 = true
                then max 0 (P.likes_count - 1) else P.likes_count))) :=
  ⟨⟨by decide, by decide⟩,
   c2_counter_invariant baseStore ⟨by decide, by decide⟩
     [.like oidA (some "s1") "u1" 1, .like oidA (some "s1") "u2" 2,
      .view oidA (some "s2") "u3" 3, .unlike oidA (some "s1") 4]⟩

/-! ### Pagination lemmas (C4) -/

theorem feedLimitNum_pos (q : Option String) (l : Int) (hl : feedLimitNum q = some l) :
    1 ≤ l := by
  unfold feedLimitNum at hl
  rcases h : limitParsed q with _ | n
  · rw [h] at hl
    cases hl
  · rw [h] at hl
    simp only [Option.map_some', Option.some.injEq] at hl
    omega

theorem getFeed_cursor_eval (papers : List Paper) (limitQ category : Option String)
    (l : Int) (hl : feedLimitNum limitQ = some l) (d : CursorData) (sortQ : Option String) :
    getFeed papers none limitQ category (some (Token.ok d)) sortQ
      = feedCursorResult papers category (sortQ.getD "newest") d l := by
  unfold getFeed
  rw [hl]
  rfl

theorem getFeed_page1_eval (papers : List Paper) (limitQ category : Option String)
    (l : Int) (hl : feedLimitNum limitQ = some l) (sortQ : Option String) :
    getFeed papers none limitQ category none sortQ
      = feedPageResult papers category (sortQ.getD "newest") 1 l := by
  unfold getFeed
  rw [hl]
  rfl

theorem feedCursorResult_newest (papers : List Paper) (category : Option String)
    (d : CursorData) (l : Int) :
    feedCursorResult papers category "newest" d l
      = .cursorOk (((papers.filter (fun p => catMatch category p
            && decide (p.created_at < d.created_at))).insertionSort newestRel).take l.toNat) l
          (((((papers.filter (fun p => catMatch category p
            && decide (p.created_at < d.created_at))).insertionSort newestRel).take
              l.toNat).length) == l.toNat)
          (feedNextCursor (((papers.filter (fun p => catMatch category p
            && decide (p.created_at < d.created_at))).insertionSort newestRel).take l.toNat) l)
    := rfl

theorem feedPageResult_newest_one (papers : List Paper) (category : Option String) (l : Int) :
    feedPageResult papers category "newest" 1 l
      = .pageOk (((papers.filter (catMatch category)).insertionSort newestRel).take l.toNat)
          1 l ((papers.filter (catMatch category)).length : Int)
          ((((papers.filter (catMatch category)).length : Int) + l - 1) / l)
          (decide (1 * l < ((papers.filter (catMatch category)).length : Int)))
          (feedNextCursor
            (((papers.filter (catMatch category)).insertionSort newestRel).take l.toNat) l) := by
  unfold feedPageResult
  simp only [show ((1 - 1 : Int) * l).toNat = 0 by simp, List.drop_zero]
  rfl

theorem c4filter_eq (papers : List Paper) (category : Option String) (d : CursorData) :
    papers.filter (fun p => catMatch category p && decide (p.created_at < d.created_at))
      = (papers.filter (catMatch category)).filter
          (fun p => decide (p.created_at < d.created_at)) := by
  rw [List.filter_filter]
  apply List.filter_congr
  intro p _
  exact Bool.and_comm _ _

instance : IsAntisymm Paper newestGt :=
  ⟨fun _ _ h1 h2 => absurd (lt_trans h1 h2) (lt_irrefl _)⟩

/-- A sorted list with pairwise-distinct creation timestamps is
strictly descending. -/
theorem strict_of_sorted_nodup (L : List Paper) (hs : List.Sorted newestRel L)
    (hnd : (L.map Paper.created_at).Nodup) : List.Pairwise newestGt L := by
  have h2 : List.Pairwise (fun a b : Paper => a.created_at ≠ b.created_at) L :=
    List.pairwise_map.mp hnd
  exact (List.Pairwise.and hs h2).imp
    (fun h => lt_of_le_of_ne h.1 (fun e => h.2 e.symm))

/-- Sorting a filtered list equals filtering the sorted list when the
sort keys are distinct. -/
theorem sort_filter_comm (M : List Paper) (hnd : (M.map Paper.created_at).Nodup)
    (q : Paper → Bool) :
    (M.filter q).insertionSort newestRel = (M.insertionSort newestRel).filter q := by
  have hperm : (M.insertionSort newestRel).Perm M := List.perm_insertionSort _ _
  have hkeys : ((M.insertionSort newestRel).map Paper.created_at).Nodup :=
    ((hperm.map Paper.created_at).nodup_iff).mpr hnd
  have hstrictS : List.Pairwise newestGt (M.insertionSort newestRel) :=
    strict_of_sorted_nodup _ (List.sorted_insertionSort _ _) hkeys
  have hsub : ((M.filter q).map Paper.created_at).Nodup :=
    List.Nodup.sublist ((List.filter_sublist M).map Paper.created_at) hnd
  have h1 : List.Pairwise newestGt ((M.filter q).insertionSort newestRel) := by
    apply strict_of_sorted_nodup _ (List.sorted_insertionSort _ _)
    exact (((List.perm_insertionSort newestRel (M.filter q)).map
      Paper.created_at).nodup_iff).mpr hsub
  have h2 : List.Pairwise newestGt ((M.insertionSort newestRel).filter q) :=
    hstrictS.filter q
  have hp : ((M.filter q).insertionSort newestRel).Perm
      ((M.insertionSort newestRel).filter q) :=
    (List.perm_insertionSort _ _).trans (hperm.filter q).symm
  exact List.eq_of_perm_of_sorted hp h1 h2

/-- In a strictly descending list, filtering by "strictly older than the
last element of the first `k`" drops exactly those first `k`. -/
theorem strict_filter_drop (T : List Paper) (k : Nat) (hstrict : List.Pairwise newestGt T)
    (hk1 : 1 ≤ k) (hk2 : k ≤ T.length) (x : Paper) (hx : (T.take k).getLast? = some x) :
    T.filter (fun p => decide (p.created_at < x.created_at)) = T.drop k := by
  have htd : T.take k ++ T.drop k = T := List.take_append_drop k T
  have hlenA : (T.take k).length = k := by
    rw [List.length_take]
    omega
  have hAne : T.take k ≠ [] := by
    intro h
    rw [h] at hlenA
    simp at hlenA
    omega
  have hxval : x = (T.take k).getLast hAne := by
    have h2 := hx
    rw [List.getLast?_eq_getLast _ hAne] at h2
    exact (Option.some.inj h2).symm
  have hxmem : x ∈ T.take k := by
    rw [hxval]
    exact List.getLast_mem hAne
  have hpairs : List.Pairwise newestGt (T.take k ++ T.drop k) := by
    rw [htd]
    exact hstrict
  rw [List.pairwise_append] at hpairs
  obtain ⟨hA, -, hcross⟩ := hpairs
  have hdropLt : ∀ b ∈ T.drop k, b.created_at < x.created_at := by
    intro b hb
    exact hcross x hxmem b hb
  have hkeepGe : ∀ a ∈ T.take k, ¬(a.created_at < x.created_at) := by
    intro a ha
    have hsplit : T.take k = (T.take k).dropLast ++ [(T.take k).getLast hAne] :=
      (List.dropLast_append_getLast hAne).symm
    have hA2 : List.Pairwise newestGt ((T.take k).dropLast ++ [(T.take k).getLast hAne]) := by
      rw [← hsplit]
      exact hA
    rw [List.pairwise_append] at hA2
    rw [hsplit] at ha
    rcases List.mem_append.mp ha with hin | hlast
    · have hgt := hA2.2.2 a hin ((T.take k).getLast hAne) (by simp)
      unfold newestGt at hgt
      rw [← hxval] at hgt
      omega
    · have hax : a = x := by
        rw [hxval]
        simpa using hlast
      rw [hax]
      omega
  conv_lhs => rw [← htd]
  rw [List.filter_append]
  rw [List.filter_eq_nil_iff.mpr (by
    intro a ha
    simpa using hkeepGe a ha)]
  rw [List.filter_eq_self.mpr (by
    intro b hb
    simpa using hdropLt b hb)]
  simp

/-- Filtering by a predicate that implies another is unchanged by first
filtering with the weaker one. -/
theorem filter_subpred (L : List Paper) (q r : Paper → Bool)
    (h : ∀ p, q p = true → r p = true) :
    L.filter q = (L.filter r).filter q := by
  rw [List.filter_filter]
  apply List.filter_congr
  intro p _
  by_cases hq : q p = true
  · simp [hq, h p hq]
  · have hq' : q p = false := by simpa using hq
    simp [hq']

/-- Cursor-page iteration: whenever the part of the sorted matching
list strictly older than the cursor boundary is `T`, following pages
collect exactly `T`. -/
theorem feedPages_cursor (papers : List Paper) (limitQ category : Option String) (l : Int)
    (hl : feedLimitNum limitQ = some l)
    (hnd : ((papers.filter (catMatch category)).map Paper.created_at).Nodup) :
    ∀ (fuel : Nat) (T : List Paper) (d : CursorData),
      ((papers.filter (catMatch category)).insertionSort newestRel).filter
          (fun p => decide (p.created_at < d.created_at)) = T →
      T.length < fuel →
      feedPages papers limitQ category (some "newest") fuel (some d) = T := by
  have hl1 : 1 ≤ l := feedLimitNum_pos _ _ hl
  have hlt1 : 1 ≤ l.toNat := by omega
  have hSstrict : List.Pairwise newestGt
      ((papers.filter (catMatch category)).insertionSort newestRel) := by
    apply strict_of_sorted_nodup _ (List.sorted_insertionSort _ _)
    exact (((List.perm_insertionSort newestRel _).map Paper.created_at).nodup_iff).mpr hnd
  intro fuel
  induction fuel with
  | zero =>
    intro T d hT hlen
    omega
  | succ n ih =>
    intro T d hT hlen
    have hTstrict : List.Pairwise newestGt T := by
      rw [← hT]
      exact hSstrict.filter _
    have hstep : feedStep papers limitQ category (some "newest") (some d)
        = .cursorOk (T.take l.toNat) l ((T.take l.toNat).length == l.toNat)
            (feedNextCursor (T.take l.toNat) l) := by
      show getFeed papers none limitQ category (some (Token.ok d)) (some "newest") = _
      rw [getFeed_cursor_eval papers limitQ category l hl d (some "newest")]
      rw [show (some "newest").getD "newest" = "newest" from rfl]
      rw [feedCursorResult_newest]
      rw [c4filter_eq, sort_filter_comm _ hnd, hT]
    simp only [feedPages]
    simp only [hstep]
    by_cases hcase : T.length < l.toNat
    · have htake : T.take l.toNat = T := List.take_of_length_le (by omega)
      have hbeq : ((T.take l.toNat).length == l.toNat) = false := by
        rw [htake]
        exact beq_eq_false_iff_ne.mpr (by omega)
      simp only [hbeq, Bool.false_eq_true, if_false, List.append_nil]
      exact htake
    · push_neg at hcase
      have hlen_take : (T.take l.toNat).length = l.toNat := by
        rw [List.length_take]
        omega
      have hbeq : ((T.take l.toNat).length == l.toNat) = true := by
        rw [hlen_take]
        simp
      have htne : T.take l.toNat ≠ [] := by
        intro h
        rw [h] at hlen_take
        simp at hlen_take
        omega
      have hnext : feedNextCursor (T.take l.toNat) l
          = some (encodeCursor ((T.take l.toNat).getLast htne)) := by
        unfold feedNextCursor
        rw [if_pos hbeq, List.getLast?_eq_getLast _ htne]
        rfl
      have hxmem : (T.take l.toNat).getLast htne ∈ T :=
        (List.take_subset _ _) (List.getLast_mem htne)
      have hxd : ((T.take l.toNat).getLast htne).created_at < d.created_at := by
        have hxmem2 : (T.take l.toNat).getLast htne
            ∈ ((papers.filter (catMatch category)).insertionSort newestRel).filter
              (fun p => decide (p.created_at < d.created_at)) := by
          rw [hT]
          exact hxmem
        have h2 := (List.mem_filter.mp hxmem2).2
        simpa using h2
      have hTdrop : T.filter
          (fun p => decide (p.created_at < ((T.take l.toNat).getLast htne).created_at))
          = T.drop l.toNat :=
        strict_filter_drop T l.toNat hTstrict hlt1 hcase _
          (by rw [List.getLast?_eq_getLast _ htne])
      have hSx : ((papers.filter (catMatch category)).insertionSort newestRel).filter
          (fun p => decide (p.created_at < ((T.take l.toNat).getLast htne).created_at))
          = T.drop l.toNat := by
        rw [filter_subpred _
          (fun p => decide (p.created_at < ((T.take l.toNat).getLast htne).created_at))
          (fun p => decide (p.created_at < d.created_at))
          (by
            intro p hp
            simp only [decide_eq_true_eq] at hp ⊢
            omega)]
        rw [hT]
        exact hTdrop
      have hrec := ih (T.drop l.toNat) (encodeCursor ((T.take l.toNat).getLast htne))
        (by
          show ((papers.filter (catMatch category)).insertionSort newestRel).filter
            (fun p => decide (p.created_at
              < ((T.take l.toNat).getLast htne).created_at)) = T.drop l.toNat
          exact hSx)
        (by
          have h3 := List.length_drop l.toNat T
          omega)
      rw [hbeq, if_pos rfl, hnext]
      show T.take l.toNat ++ feedPages papers limitQ category (some "newest") n
        (some (encodeCursor ((T.take l.toNat).getLast htne))) = T
      rw [hrec]
      exact List.take_append_drop _ _

/-- C4 counterexample.  With two records sharing one `created_at` and
page size 1, iterating cursor pages from the start loses the second
record: the boundary filter `created_at < cursor.created_at` skips
sort-key ties because the cursor's `id` tie-break is never applied. -/
theorem c4_counterexample :
    feedPages [c4A, c4B] (some "1") none (some "newest") 5 none = [c4A]
    ∧ c4B ∈ [c4A, c4B]
    ∧ catMatch none c4B = true
    ∧ c4B ∉ feedPages [c4A, c4B] (some "1") none (some "newest") 5 none := by
  decide

/-- C4 amended.  The cursor stores the tie-break id but the page filter
uses only the sort keys, so records that share the boundary key are
skipped; completeness holds exactly on tie-free data: for the `newest`
sort, whenever the matching records have pairwise-distinct
`created_at`, iterating cursor pages from the start collects precisely
the sorted matching list — every matching record exactly once, no
duplicates, none omitted. -/
theorem c4_pagination_complete (papers : List Paper) (limitQ category : Option String)
    (l : Int) (hl : feedLimitNum limitQ = some l)
    (hnd : ((papers.filter (catMatch category)).map Paper.created_at).Nodup) :
    feedPages papers limitQ category (some "newest") (papers.length + 2) none
      = (papers.filter (catMatch category)).insertionSort newestRel
    ∧ (feedPages papers limitQ category (some "newest") (papers.length + 2) none).Perm
        (papers.filter (catMatch category)) := by
  have hl1 : 1 ≤ l := feedLimitNum_pos _ _ hl
  have hmain : feedPages papers limitQ category (some "newest") (papers.length + 2) none
      = (papers.filter (catMatch category)).insertionSort newestRel := by
    have hstep0 : feedStep papers limitQ category (some "newest") none
        = feedPageResult papers category "newest" 1 l := by
      show getFeed papers none limitQ category none (some "newest") = _
      rw [getFeed_page1_eval papers limitQ category l hl (some "newest")]
      rfl
    simp only [feedPages]
    simp only [hstep0, feedPageResult_newest_one]
    have hSM : ((papers.filter (catMatch category)).insertionSort newestRel).length
        = (papers.filter (catMatch category)).length :=
      (List.perm_insertionSort _ _).length_eq
    have hMp : (papers.filter (catMatch category)).length ≤ papers.length :=
      List.length_filter_le _ _
    by_cases hcase : (1 * l < ((papers.filter (catMatch category)).length : Int))
    · have hdec : decide (1 * l < ((papers.filter (catMatch category)).length : Int)) = true :=
        decide_eq_true hcase
      have hlS : l.toNat ≤ ((papers.filter (catMatch category)).insertionSort newestRel).length
        := by omega
      have hlen_take : ((((papers.filter (catMatch category)).insertionSort newestRel).take
          l.toNat).length) = l.toNat := by
        rw [List.length_take]
        omega
      have htne : ((papers.filter (catMatch category)).insertionSort newestRel).take l.toNat
          ≠ [] := by
        intro h
        rw [h] at hlen_take
        simp at hlen_take
        omega
      have hbeq : (((((papers.filter (catMatch category)).insertionSort newestRel).take
          l.toNat).length) == l.toNat) = true := by
        rw [hlen_take]
        simp
      have hnext : feedNextCursor
          (((papers.filter (catMatch category)).insertionSort newestRel).take l.toNat) l
          = some (encodeCursor ((((papers.filter (catMatch category)).insertionSort
              newestRel).take l.toNat).getLast htne)) := by
        unfold feedNextCursor
        rw [if_pos hbeq, List.getLast?_eq_getLast _ htne]
        rfl
      have hSstrict : List.Pairwise newestGt
          ((papers.filter (catMatch category)).insertionSort newestRel) := by
        apply strict_of_sorted_nodup _ (List.sorted_insertionSort _ _)
        exact (((List.perm_insertionSort newestRel _).map Paper.created_at).nodup_iff).mpr hnd
      have hdrop : ((papers.filter (catMatch category)).insertionSort newestRel).filter
          (fun p => decide (p.created_at
            < ((((papers.filter (catMatch category)).insertionSort newestRel).take
                l.toNat).getLast htne).created_at))
          = ((papers.filter (catMatch category)).insertionSort newestRel).drop l.toNat :=
        strict_filter_drop _ l.toNat hSstrict (by omega) hlS _
          (by rw [List.getLast?_eq_getLast _ htne])
      have hrec := feedPages_cursor papers limitQ category l hl hnd (papers.length + 1)
        (((papers.filter (catMatch category)).insertionSort newestRel).drop l.toNat)
        (encodeCursor ((((papers.filter (catMatch category)).insertionSort newestRel).take
          l.toNat).getLast htne))
        hdrop
        (by
          have h3 := List.length_drop l.toNat
            ((papers.filter (catMatch category)).insertionSort newestRel)
          omega)
      rw [hdec, if_pos rfl, hnext]
      show ((papers.filter (catMatch category)).insertionSort newestRel).take l.toNat
          ++ feedPages papers limitQ category (some "newest") (papers.length + 1)
            (some (encodeCursor ((((papers.filter (catMatch category)).insertionSort
              newestRel).take l.toNat).getLast htne)))
        = (papers.filter (catMatch category)).insertionSort newestRel
      rw [hrec]
      exact List.take_append_drop _ _
    · have hdec : decide (1 * l < ((papers.filter (catMatch category)).length : Int)) = false :=
        decide_eq_false hcase
      have hfits : ((papers.filter (catMatch category)).insertionSort newestRel).length
          ≤ l.toNat := by omega
      simp only [hdec, Bool.false_eq_true, if_false, List.append_nil]
      exact List.take_of_length_le hfits
  exact ⟨hmain, hmain ▸ List.perm_insertionSort _ _⟩

/-- Closed instance of the amended C4: two tie-free records, page size
1, iterated to completion. -/
theorem c4_witness :
    (feedLimitNum (some "1") = some 1
      ∧ (([c4A, c4D].filter (catMatch none)).map Paper.created_at).Nodup)
    ∧ (feedPages [c4A, c4D] (some "1") none (some "newest") ([c4A, c4D].length + 2) none
        = ([c4A, c4D].filter (catMatch none)).insertionSort newestRel
      ∧ (feedPages [c4A, c4D] (some "1") none (some "newest")
          ([c4A, c4D].length + 2) none).Perm ([c4A, c4D].filter (catMatch none))) :=
  ⟨⟨by decide, by decide⟩,
   c4_pagination_complete [c4A, c4D] (some "1") none 1 (by decide) (by decide)⟩

end Citations
